import Mathlib

/-!
Verification of the rules engine and AI of the Rock-Paper-Scissors board
game (`game.py`): a shallow embedding of the `Piece`, `Board`, `Player`,
`Game` and `MinimaxAI` classes, followed by theorems about the embedded
operations.  Python lists become Lean lists, in-place mutation becomes
explicit state passing, and operations that can raise a Python exception
return `Option` (`none` = exception).  Python's `random` calls are
modelled by explicit oracle parameters: `random.shuffle` becomes an
arbitrary permutation (constrained by a `List.Perm` hypothesis where it
matters) and `random.randint(0, n-1)` becomes an arbitrary natural
number reduced modulo `n`, which reaches exactly the same set of values.
-/

/-- The three piece types `'R'`, `'P'`, `'S'` used by the game. -/
inductive PieceType where
  | R
  | P
  | S
  deriving DecidableEq, Repr

/-- `Piece.__init__`: a piece has a type and an owning player id. -/
structure Piece where
  type : PieceType
  player_id : Nat
  deriving DecidableEq, Repr

/-- `Board.__init__`: a `size` × `size` grid of optional pieces.  The grid
is kept as a list of rows, like Python's list of lists. -/
structure Board where
  size : Nat
  grid : List (List (Option Piece))
  deriving DecidableEq, Repr

/-- Reading `grid[r][c]` for non-negative in-range indices: `none` when
out of range or the cell is empty. -/
def getCell (b : Board) (r c : Nat) : Option Piece :=
  (b.grid[r]?.bind fun row => row[c]?).join

/-- Writing `grid[r][c] = v` (identity when out of range, which never
happens on the well-formed boards considered below). -/
def setCell (b : Board) (r c : Nat) (v : Option Piece) : Board :=
  { b with grid := b.grid.set r ((b.grid.getD r []).set c v) }

/-- The grid really is `size` rows of `size` cells. -/
def Board.WF (b : Board) : Prop :=
  b.grid.length = b.size ∧ ∀ row ∈ b.grid, row.length = b.size

instance (b : Board) : Decidable b.WF :=
  inferInstanceAs (Decidable (b.grid.length = b.size ∧ ∀ row ∈ b.grid, row.length = b.size))

/-- `Board.resolve_combat`: 0 on equal types, 1 when the first piece's
type beats the second's (R>S, P>R, S>P), -1 otherwise. -/
def resolve_combat (piece1 piece2 : Piece) : Int :=
  if piece1.type = piece2.type then 0
  else if (piece1.type = PieceType.R ∧ piece2.type = PieceType.S) ∨
          (piece1.type = PieceType.P ∧ piece2.type = PieceType.R) ∨
          (piece1.type = PieceType.S ∧ piece2.type = PieceType.P) then 1
  else -1

/-- The `combat_type` string `Board.move_piece` computes for sound
effects once combat is known to happen. -/
def combatTypeOf (moving target : Piece) : String :=
  if moving.type = PieceType.R ∨ target.type = PieceType.R then "combat_rock"
  else if moving.type = PieceType.P ∨ target.type = PieceType.P then "combat_paper"
  else if moving.type = PieceType.S ∨ target.type = PieceType.S then "combat_scissors"
  else ""

/-- `Board.place_piece`: succeeds only in bounds on an empty cell. -/
def place_piece (b : Board) (row col : Int) (piece : Piece) : Bool × Board :=
  if 0 ≤ row ∧ row < b.size ∧ 0 ≤ col ∧ col < b.size ∧
      getCell b row.toNat col.toNat = none then
    (true, setCell b row.toNat col.toNat (some piece))
  else
    (false, b)

/-- `Board.move_piece`: returns (success, captured piece, combat type)
together with the updated board (Python mutates `self.grid` in place).
All index checks precede any grid access, so this method never raises. -/
def move_piece (b : Board) (from_row from_col to_row to_col : Int) :
    (Bool × Option Piece × String) × Board :=
  if ¬ (0 ≤ from_row ∧ from_row < b.size ∧ 0 ≤ from_col ∧ from_col < b.size ∧
        0 ≤ to_row ∧ to_row < b.size ∧ 0 ≤ to_col ∧ to_col < b.size) then
    ((false, none, ""), b)
  else
    match getCell b from_row.toNat from_col.toNat with
    | none => ((false, none, ""), b)
    | some moving_piece =>
      if (to_row - from_row).natAbs + (to_col - from_col).natAbs ≠ 1 then
        ((false, none, ""), b)
      else
        match getCell b to_row.toNat to_col.toNat with
        | none =>
          ((true, none, ""),
            setCell (setCell b to_row.toNat to_col.toNat (some moving_piece))
              from_row.toNat from_col.toNat none)
        | some target_piece =>
          if target_piece.player_id = moving_piece.player_id then
            ((false, none, ""), b)
          else
            let result := resolve_combat moving_piece target_piece
            let combat_type := combatTypeOf moving_piece target_piece
            if result = 1 then
              ((true, some target_piece, combat_type),
                setCell (setCell b to_row.toNat to_col.toNat (some moving_piece))
                  from_row.toNat from_col.toNat none)
            else if result = -1 then
              ((true, some moving_piece, combat_type),
                setCell b from_row.toNat from_col.toNat none)
            else
              ((true, some moving_piece, combat_type),
                setCell (setCell b from_row.toNat from_col.toNat none)
                  to_row.toNat to_col.toNat none)

/-- `Board.get_player_pieces`: row-major scan for a player's pieces. -/
def get_player_pieces (b : Board) (player_id : Nat) : List (Nat × Nat × Piece) :=
  (List.range b.size).flatMap fun row =>
    (List.range b.size).flatMap fun col =>
      match getCell b row col with
      | some p => if p.player_id = player_id then [(row, col, p)] else []
      | none => []

/-- Total number of pieces on the board. -/
def totalPieces (b : Board) : Nat :=
  (b.grid.map fun row => row.countP fun c => c.isSome).sum

/-- C1: `Board.resolve_combat` depends only on the two piece types; it
returns 0 exactly on equal types, 1 exactly on the three dominant pairs
(R over S, P over R, S over P), and -1 on every other unequal pair. -/
theorem resolve_combat_table :
    ∀ p1 p2 : Piece,
      (resolve_combat p1 p2 = 0 ↔ p1.type = p2.type) ∧
      (resolve_combat p1 p2 = 1 ↔
        (p1.type = PieceType.R ∧ p2.type = PieceType.S) ∨
        (p1.type = PieceType.P ∧ p2.type = PieceType.R) ∨
        (p1.type = PieceType.S ∧ p2.type = PieceType.P)) ∧
      (resolve_combat p1 p2 = -1 ↔
        p1.type ≠ p2.type ∧
        ¬ ((p1.type = PieceType.R ∧ p2.type = PieceType.S) ∨
           (p1.type = PieceType.P ∧ p2.type = PieceType.R) ∨
           (p1.type = PieceType.S ∧ p2.type = PieceType.P))) ∧
      (∀ i j : Nat, resolve_combat ⟨p1.type, i⟩ ⟨p2.type, j⟩ = resolve_combat p1 p2) := by
  rintro ⟨t1, i1⟩ ⟨t2, i2⟩
  cases t1 <;> cases t2 <;> simp [resolve_combat]

/-- `Player.__init__`: a player with an unplaced-piece inventory holding
`piece_count` pieces of each type in `piece_types`, in order. -/
structure Player where
  id : Nat
  name : String
  piece_types : List PieceType
  piece_count : Nat
  pieces : List Piece
  deriving DecidableEq, Repr

/-- Builds a player the way `Player.__init__` does. -/
def Player.init (player_id : Nat) (nm : String) (piece_types : List PieceType)
    (piece_count : Nat) : Player :=
  { id := player_id, name := nm, piece_types := piece_types, piece_count := piece_count,
    pieces := piece_types.flatMap fun t => List.replicate piece_count ⟨t, player_id⟩ }

/-- `Player.get_random_piece`, with `random.randint(0, len-1)` modelled by
an arbitrary natural `k` reduced modulo the length (the same value range).
Returns the removed piece and the shrunk inventory. -/
def get_random_piece (pl : Player) (k : Nat) : Option Piece × Player :=
  if pl.pieces.isEmpty then (none, pl)
  else
    let piece_index := k % pl.pieces.length
    (pl.pieces[piece_index]?, { pl with pieces := pl.pieces.eraseIdx piece_index })

/-- The `TURN_TIME` constant (seconds per turn). -/
def TURN_TIME : Int := 15

/-- `Game.__init__`'s state: board, players, whose turn, termination. -/
structure Game where
  board : Board
  num_players : Nat
  players : List Player
  current_player_index : Nat
  game_over : Bool
  winner : Option Player
  turn_timer : Int
  deriving DecidableEq, Repr

/-- `Game.__init__`: `none` models the `ValueError` raised when the
player count is not 2 or 3. -/
def Game.init (num_players : Nat) : Option Game :=
  if num_players = 2 ∨ num_players = 3 then
    some { board := { size := 6, grid := List.replicate 6 (List.replicate 6 none) },
           num_players := num_players,
           players := (List.range num_players).map fun i =>
             Player.init (i + 1) ("Player " ++ toString (i + 1))
               [PieceType.R, PieceType.P, PieceType.S] 4,
           current_player_index := 0,
           game_over := false,
           winner := none,
           turn_timer := TURN_TIME }
  else none

/-- `Game.check_game_over`: counts players that still have pieces,
remembering the last one seen; at most one such player ends the game. -/
def check_game_over (g : Game) : Bool × Game :=
  let r := g.players.foldl
    (fun (acc : Nat × Option Player) player =>
      if (get_player_pieces g.board player.id).isEmpty then acc
      else (acc.1 + 1, some player))
    (0, none)
  if r.1 ≤ 1 then (true, { g with game_over := true, winner := r.2 })
  else (false, g)

/-- The `while` loop of `Game.next_turn`, with explicit fuel.  For a
well-formed game `num_players + 1` units of fuel are enough: the loop
stops at the first player that still has pieces, or as soon as
`check_game_over` reports the game over. -/
def nextTurnLoop : Nat → Game → Game
  | 0, g => g
  | Nat.succ fuel, g =>
    match g.players[g.current_player_index]? with
    | none => g
    | some p =>
      if (get_player_pieces g.board p.id).isEmpty then
        let r := check_game_over g
        if r.1 then r.2
        else nextTurnLoop fuel
          { r.2 with current_player_index := (r.2.current_player_index + 1) % r.2.num_players }
      else g

/-- `Game.next_turn`: advance the index cyclically, reset the timer,
then skip players with no pieces. -/
def next_turn (g : Game) : Game :=
  let g1 := { g with
    current_player_index := (g.current_player_index + 1) % g.num_players,
    turn_timer := TURN_TIME }
  nextTurnLoop (g1.num_players + 1) g1

/-- Python list indexing: valid for `-n ≤ i < n` (negative wraps), and
an `IndexError` (`none`) outside that range. -/
def pyIdx (n : Nat) (i : Int) : Option Nat :=
  if 0 ≤ i ∧ i < (n : Int) then some i.toNat
  else if -(n : Int) ≤ i ∧ i < 0 then some (i + n).toNat
  else none

/-- Reading `board.grid[r][c]` with Python's indexing semantics: the
outer `none` models an `IndexError`. -/
def pyGetCell (b : Board) (r c : Int) : Option (Option Piece) :=
  match pyIdx b.grid.length r with
  | none => none
  | some ri =>
    match b.grid[ri]? with
    | none => none
    | some row =>
      match pyIdx row.length c with
      | none => none
      | some ci => row[ci]?

/-- The `for dr, dc in directions` loop of `Game.get_valid_moves`.  The
source cell `grid[row][col]` is only read when a neighbor is occupied
(Python's short-circuit `or`); reading it can raise (`none`): an
`IndexError` from a bad index or an `AttributeError` from
`None.player_id` when the source cell is empty. -/
def validMovesLoop (g : Game) (row col : Int) :
    List (Int × Int) → List (Int × Int) → Option (List (Int × Int))
  | [], acc => some acc
  | d :: dirs, acc =>
    let new_row := row + d.1
    let new_col := col + d.2
    if 0 ≤ new_row ∧ new_row < g.board.size ∧ 0 ≤ new_col ∧ new_col < g.board.size then
      match getCell g.board new_row.toNat new_col.toNat with
      | none => validMovesLoop g row col dirs (acc ++ [(new_row, new_col)])
      | some target =>
        match pyGetCell g.board row col with
        | none => none
        | some none => none
        | some (some s) =>
          if target.player_id ≠ s.player_id then
            validMovesLoop g row col dirs (acc ++ [(new_row, new_col)])
          else
            validMovesLoop g row col dirs acc
    else
      validMovesLoop g row col dirs acc

/-- `Game.get_valid_moves`: the four orthogonal neighbors that are
in bounds and empty or enemy-owned. -/
def get_valid_moves (g : Game) (row col : Int) : Option (List (Int × Int)) :=
  validMovesLoop g row col [(0, 1), (1, 0), (0, -1), (-1, 0)] []

/-- `Game.play_turn`: ownership check (reading the grid with Python
index semantics, hence the possible exception), then `move_piece`, then
turn advance on success. -/
def play_turn (g : Game) (from_row from_col to_row to_col : Int) :
    Option ((Bool × String) × Game) :=
  match g.players[g.current_player_index]? with
  | none => none
  | some current_player =>
    match pyGetCell g.board from_row from_col with
    | none => none
    | some none => some ((false, ""), g)
    | some (some p) =>
      if p.player_id ≠ current_player.id then
        some ((false, ""), g)
      else
        let r := move_piece g.board from_row from_col to_row to_col
        let g1 := { g with board := r.2 }
        if r.1.1 then
          some ((true, r.1.2.2), next_turn g1)
        else
          some ((false, ""), g1)

/-- The freshly constructed two-player game, before board setup. -/
def game2 : Game :=
  { board := { size := 6, grid := List.replicate 6 (List.replicate 6 none) },
    num_players := 2,
    players := [Player.init 1 "Player 1" [PieceType.R, PieceType.P, PieceType.S] 4,
                Player.init 2 "Player 2" [PieceType.R, PieceType.P, PieceType.S] 4],
    current_player_index := 0,
    game_over := false,
    winner := none,
    turn_timer := TURN_TIME }

/-- `game2` is exactly what `Game.__init__` builds for two players. -/
theorem game2_eq_init : Game.init 2 = some game2 := by
  decide

/-! ### Cell access and counting lemmas for the grid -/

/-- Counting under a point update of a list. -/
theorem countP_set (p : α → Bool) (l : List α) (i : Nat) (x : α) (h : i < l.length) :
    (l.set i x).countP p + (if p (l.get ⟨i, h⟩) then 1 else 0) =
      l.countP p + (if p x then 1 else 0) := by
  induction l generalizing i with
  | nil => cases h
  | cons a l ih =>
    cases i with
    | zero =>
      simp only [List.set, List.countP_cons, List.get]
      omega
    | succ i =>
      have h' : i < l.length := Nat.lt_of_succ_lt_succ h
      simp only [List.set, List.countP_cons, List.get]
      have := ih i h'
      omega

/-- Summing a function over a list with a point update. -/
theorem sum_map_set (f : α → Nat) (l : List α) (i : Nat) (x : α) (h : i < l.length) :
    ((l.set i x).map f).sum + f (l.get ⟨i, h⟩) = (l.map f).sum + f x := by
  induction l generalizing i with
  | nil => cases h
  | cons a l ih =>
    cases i with
    | zero =>
      simp only [List.set, List.map_cons, List.sum_cons, List.get]
      omega
    | succ i =>
      have h' : i < l.length := Nat.lt_of_succ_lt_succ h
      simp only [List.set, List.map_cons, List.sum_cons, List.get]
      have := ih i h'
      omega

/-- Reading back the written cell. -/
theorem getCell_setCell_self (b : Board) (r c : Nat) (v : Option Piece)
    (hr : r < b.grid.length) (hc : c < (b.grid.getD r []).length) :
    getCell (setCell b r c v) r c = v := by
  simp only [getCell, setCell]
  rw [List.getElem?_set_self hr]
  have hc' : c < (b.grid[r]?.getD []).length := by
    rw [← List.getD_eq_getElem?_getD]
    exact hc
  simp [List.getElem?_set_self hc', Option.join]

/-- The grid row at an in-range index of a well-formed board has `size`
cells. -/
theorem row_length_of_WF (b : Board) (hWF : b.WF) (r : Nat) (hr : r < b.grid.length) :
    (b.grid.getD r []).length = b.size := by
  rw [List.getD_eq_getElem?_getD, List.getElem?_eq_getElem hr]
  exact hWF.2 _ (List.getElem_mem hr)

/-- Writing one cell leaves every other cell unchanged. -/
theorem getCell_setCell_ne (b : Board) (r c r' c' : Nat) (v : Option Piece)
    (hne : r ≠ r' ∨ c ≠ c') :
    getCell (setCell b r c v) r' c' = getCell b r' c' := by
  by_cases hr : r < b.grid.length
  · by_cases hrr : r = r'
    · subst hrr
      have h : c ≠ c' := hne.resolve_left (fun h => h rfl)
      have e2 : b.grid.getD r [] = b.grid[r] := by
        rw [List.getD_eq_getElem?_getD, List.getElem?_eq_getElem hr]
        rfl
      simp only [getCell, setCell]
      rw [List.getElem?_set_self hr, List.getElem?_eq_getElem hr]
      change (((b.grid.getD r []).set c v)[c']?).join = ((b.grid[r])[c']?).join
      rw [List.getElem?_set_ne h, e2]
    · simp only [getCell, setCell]
      rw [List.getElem?_set_ne hrr]
  · simp only [getCell, setCell, List.set_eq_of_length_le (Nat.le_of_not_lt hr)]

/-- `setCell` preserves well-formedness. -/
theorem setCell_WF (b : Board) (r c : Nat) (v : Option Piece) (hWF : b.WF) :
    (setCell b r c v).WF := by
  obtain ⟨hlen, hrow⟩ := hWF
  constructor
  · simpa [setCell] using hlen
  · intro row hmem
    simp only [setCell] at hmem
    by_cases hr : r < b.grid.length
    · rcases List.mem_or_eq_of_mem_set hmem with h | h
      · exact hrow row h
      · subst h
        rw [List.length_set]
        exact row_length_of_WF b ⟨hlen, hrow⟩ r hr
    · rw [List.set_eq_of_length_le (Nat.le_of_not_lt hr)] at hmem
      exact hrow row hmem

/-- Effect of `setCell` on the total piece count. -/
theorem totalPieces_setCell (b : Board) (r c : Nat) (v : Option Piece) (hWF : b.WF)
    (hr : r < b.size) (hc : c < b.size) :
    totalPieces (setCell b r c v) + (if (getCell b r c).isSome then 1 else 0) =
      totalPieces b + (if v.isSome then 1 else 0) := by
  have hr' : r < b.grid.length := by rw [hWF.1]; exact hr
  have hrowlen : (b.grid.getD r []).length = b.size := row_length_of_WF b hWF r hr'
  have hc' : c < (b.grid.getD r []).length := by rw [hrowlen]; exact hc
  have hgrid : b.grid.getD r [] = b.grid.get ⟨r, hr'⟩ := by
    rw [List.getD_eq_getElem?_getD, List.getElem?_eq_getElem hr']
    rfl
  have hsum := sum_map_set (fun row => row.countP fun x => x.isSome)
    b.grid r ((b.grid.getD r []).set c v) hr'
  have hcount := countP_set (fun x : Option Piece => x.isSome)
    (b.grid.getD r []) c v hc'
  have hget : getCell b r c = (b.grid.getD r []).get ⟨c, hc'⟩ := by
    simp only [getCell]
    rw [List.getElem?_eq_getElem hr']
    change ((b.grid[r])[c]?).join = _
    rw [show (b.grid[r] : List (Option Piece)) = b.grid.getD r [] from hgrid.symm]
    rw [List.getElem?_eq_getElem hc']
    rfl
  simp only [totalPieces, setCell]
  rw [hget]
  rw [show b.grid.get ⟨r, hr'⟩ = b.grid.getD r [] from hgrid.symm] at hsum
  split_ifs at hcount ⊢ <;> omega

/-- `resolve_combat` only returns 0, 1 or -1. -/
theorem resolve_combat_cases (p q : Piece) :
    resolve_combat p q = 0 ∨ resolve_combat p q = 1 ∨ resolve_combat p q = -1 := by
  unfold resolve_combat
  split
  · exact Or.inl rfl
  · split
    · exact Or.inr (Or.inl rfl)
    · exact Or.inr (Or.inr rfl)

/-- Full case analysis of `Board.move_piece`: either the move is rejected
and the board is untouched, or it is accepted and the result is one of the
four shapes (relocation, attacker wins, defender wins, draw). -/
theorem move_piece_spec (b : Board) (fr fc tr tc : Int) :
    ((move_piece b fr fc tr tc).1.1 = false ∧ (move_piece b fr fc tr tc).2 = b) ∨
    ((0 ≤ fr ∧ fr < b.size ∧ 0 ≤ fc ∧ fc < b.size ∧
      0 ≤ tr ∧ tr < b.size ∧ 0 ≤ tc ∧ tc < b.size) ∧
     (tr - fr).natAbs + (tc - fc).natAbs = 1 ∧
     ∃ p, getCell b fr.toNat fc.toNat = some p ∧
       ((getCell b tr.toNat tc.toNat = none ∧
          move_piece b fr fc tr tc = ((true, none, ""),
            setCell (setCell b tr.toNat tc.toNat (some p)) fr.toNat fc.toNat none)) ∨
        (∃ q, getCell b tr.toNat tc.toNat = some q ∧ q.player_id ≠ p.player_id ∧
          ((resolve_combat p q = 1 ∧
             move_piece b fr fc tr tc = ((true, some q, combatTypeOf p q),
               setCell (setCell b tr.toNat tc.toNat (some p)) fr.toNat fc.toNat none)) ∨
           (resolve_combat p q = -1 ∧
             move_piece b fr fc tr tc = ((true, some p, combatTypeOf p q),
               setCell b fr.toNat fc.toNat none)) ∨
           (resolve_combat p q = 0 ∧
             move_piece b fr fc tr tc = ((true, some p, combatTypeOf p q),
               setCell (setCell b fr.toNat fc.toNat none) tr.toNat tc.toNat none)))))) := by
  conv_lhs => rw [move_piece]
  rw [move_piece]
  split
  case isTrue hb => exact Or.inl ⟨rfl, rfl⟩
  case isFalse hb =>
    push_neg at hb
    split
    case h_1 hsrc => exact Or.inl ⟨rfl, rfl⟩
    case h_2 p hsrc =>
      split
      case isTrue hdist => exact Or.inl ⟨rfl, rfl⟩
      case isFalse hdist =>
        rw [Decidable.not_not] at hdist
        split
        case h_1 hdst =>
          refine Or.inr ⟨?_, hdist, p, hsrc, Or.inl ⟨hdst, rfl⟩⟩
          obtain ⟨h1, h2, h3, h4, h5, h6, h7⟩ := hb
          exact ⟨h1, h2, h3, h4, h5, h6, h7⟩
        case h_2 q hdst =>
          split
          case isTrue hown => exact Or.inl ⟨rfl, rfl⟩
          case isFalse hown =>
            have hbnd : 0 ≤ fr ∧ fr < b.size ∧ 0 ≤ fc ∧ fc < b.size ∧
                0 ≤ tr ∧ tr < b.size ∧ 0 ≤ tc ∧ tc < b.size := by
              obtain ⟨h1, h2, h3, h4, h5, h6, h7⟩ := hb
              exact ⟨h1, h2, h3, h4, h5, h6, h7⟩
            rcases resolve_combat_cases p q with h0 | h1 | hm1
            · refine Or.inr ⟨hbnd, hdist, p, hsrc,
                Or.inr ⟨q, hdst, hown, Or.inr (Or.inr ⟨h0, ?_⟩)⟩⟩
              rw [if_neg (by rw [h0]; decide), if_neg (by rw [h0]; decide)]
            · refine Or.inr ⟨hbnd, hdist, p, hsrc,
                Or.inr ⟨q, hdst, hown, Or.inl ⟨h1, ?_⟩⟩⟩
              rw [if_pos h1]
            · refine Or.inr ⟨hbnd, hdist, p, hsrc,
                Or.inr ⟨q, hdst, hown, Or.inr (Or.inl ⟨hm1, ?_⟩)⟩⟩
              rw [if_neg (by rw [hm1]; decide), if_pos hm1]

/-- `setCell` does not change the number of grid rows. -/
theorem setCell_grid_length (b : Board) (r c : Nat) (v : Option Piece) :
    (setCell b r c v).grid.length = b.grid.length := by
  simp [setCell]

/-- `setCell` keeps the declared board size. -/
theorem setCell_size (b : Board) (r c : Nat) (v : Option Piece) :
    (setCell b r c v).size = b.size := rfl

/-- `getCell_setCell_self` restated against the declared size. -/
theorem getCell_setCell_self' (b : Board) (hWF : b.WF) (r c : Nat) (v : Option Piece)
    (hr : r < b.size) (hc : c < b.size) :
    getCell (setCell b r c v) r c = v := by
  have hr' : r < b.grid.length := by rw [hWF.1]; exact hr
  exact getCell_setCell_self b r c v hr'
    (by rw [row_length_of_WF b hWF r hr']; exact hc)

/-- `Board.move_piece` preserves well-formedness. -/
theorem move_piece_WF (b : Board) (fr fc tr tc : Int) (hWF : b.WF) :
    (move_piece b fr fc tr tc).2.WF := by
  rcases move_piece_spec b fr fc tr tc with ⟨_, h2⟩ | ⟨hbnd, hdist, p, hsrc, hcase⟩
  · rw [h2]; exact hWF
  · rcases hcase with ⟨_, heq⟩ | ⟨q, _, _, hcomb⟩
    · rw [heq]; exact setCell_WF _ _ _ _ (setCell_WF _ _ _ _ hWF)
    · rcases hcomb with ⟨_, heq⟩ | ⟨_, heq⟩ | ⟨_, heq⟩ <;> rw [heq] <;>
        first
        | exact setCell_WF _ _ _ _ (setCell_WF _ _ _ _ hWF)
        | exact setCell_WF _ _ _ _ hWF

/-- Count/cell bookkeeping for every outcome of `Board.move_piece`:
rejection leaves the board untouched; relocation to an empty cell keeps
the count; a won combat (either side) removes exactly one piece; a draw
removes exactly two and empties both cells. -/
theorem move_piece_count_cases (b : Board) (hWF : b.WF) (fr fc tr tc : Int) :
    ((move_piece b fr fc tr tc).1.1 = false ∧ (move_piece b fr fc tr tc).2 = b) ∨
    ((move_piece b fr fc tr tc).1.1 = true ∧
      ((getCell b tr.toNat tc.toNat = none ∧
         totalPieces (move_piece b fr fc tr tc).2 = totalPieces b) ∨
       (∃ p q, getCell b fr.toNat fc.toNat = some p ∧
          getCell b tr.toNat tc.toNat = some q ∧
          ((resolve_combat p q ≠ 0 ∧
             totalPieces (move_piece b fr fc tr tc).2 + 1 = totalPieces b) ∨
           (resolve_combat p q = 0 ∧
             totalPieces (move_piece b fr fc tr tc).2 + 2 = totalPieces b ∧
             getCell (move_piece b fr fc tr tc).2 fr.toNat fc.toNat = none ∧
             getCell (move_piece b fr fc tr tc).2 tr.toNat tc.toNat = none))))) := by
  rcases move_piece_spec b fr fc tr tc with ⟨h1, h2⟩ | ⟨hbnd, hdist, p, hsrc, hcase⟩
  · exact Or.inl ⟨h1, h2⟩
  · obtain ⟨ha, hb', hc', hd, he, hf, hg, hh⟩ := hbnd
    have hFR : fr.toNat < b.size := by omega
    have hFC : fc.toNat < b.size := by omega
    have hTR : tr.toNat < b.size := by omega
    have hTC : tc.toNat < b.size := by omega
    have hneFT : fr.toNat ≠ tr.toNat ∨ fc.toNat ≠ tc.toNat := by omega
    have hneTF : tr.toNat ≠ fr.toNat ∨ tc.toNat ≠ fc.toNat := by omega
    rcases hcase with ⟨hdst, heq⟩ | ⟨q, hdst, hown, hcomb⟩
    · -- relocation to an empty destination
      refine Or.inr ⟨by rw [heq], Or.inl ⟨hdst, ?_⟩⟩
      rw [heq]
      dsimp only
      have hWF1 : (setCell b tr.toNat tc.toNat (some p)).WF := setCell_WF _ _ _ _ hWF
      have e1 := totalPieces_setCell b tr.toNat tc.toNat (some p) hWF hTR hTC
      rw [hdst] at e1
      have e2 := totalPieces_setCell (setCell b tr.toNat tc.toNat (some p))
        fr.toNat fc.toNat none hWF1 hFR hFC
      rw [getCell_setCell_ne b tr.toNat tc.toNat fr.toNat fc.toNat (some p) hneTF,
        hsrc] at e2
      simp at e1 e2
      omega
    · rcases hcomb with ⟨hres, heq⟩ | ⟨hres, heq⟩ | ⟨hres, heq⟩
      · -- attacker wins: defender removed
        refine Or.inr ⟨by rw [heq], Or.inr ⟨p, q, hsrc, hdst,
          Or.inl ⟨by rw [hres]; decide, ?_⟩⟩⟩
        rw [heq]
        dsimp only
        have hWF1 : (setCell b tr.toNat tc.toNat (some p)).WF := setCell_WF _ _ _ _ hWF
        have e1 := totalPieces_setCell b tr.toNat tc.toNat (some p) hWF hTR hTC
        rw [hdst] at e1
        have e2 := totalPieces_setCell (setCell b tr.toNat tc.toNat (some p))
          fr.toNat fc.toNat none hWF1 hFR hFC
        rw [getCell_setCell_ne b tr.toNat tc.toNat fr.toNat fc.toNat (some p) hneTF,
          hsrc] at e2
        simp at e1 e2
        omega
      · -- defender wins: attacker removed
        refine Or.inr ⟨by rw [heq], Or.inr ⟨p, q, hsrc, hdst,
          Or.inl ⟨by rw [hres]; decide, ?_⟩⟩⟩
        rw [heq]
        dsimp only
        have e1 := totalPieces_setCell b fr.toNat fc.toNat none hWF hFR hFC
        rw [hsrc] at e1
        simp at e1
        omega
      · -- draw: both removed
        have hWF1 : (setCell b fr.toNat fc.toNat none).WF := setCell_WF _ _ _ _ hWF
        have e1 := totalPieces_setCell b fr.toNat fc.toNat none hWF hFR hFC
        rw [hsrc] at e1
        have e2 := totalPieces_setCell (setCell b fr.toNat fc.toNat none)
          tr.toNat tc.toNat none hWF1 hTR hTC
        rw [getCell_setCell_ne b fr.toNat fc.toNat tr.toNat tc.toNat none hneFT,
          hdst] at e2
        simp at e1 e2
        refine Or.inr ⟨by rw [heq], Or.inr ⟨p, q, hsrc, hdst,
          Or.inr ⟨hres, by rw [heq]; dsimp only; omega, ?_, ?_⟩⟩⟩
        · rw [heq]
          dsimp only
          rw [getCell_setCell_ne _ tr.toNat tc.toNat fr.toNat fc.toNat none hneTF]
          exact getCell_setCell_self' b hWF fr.toNat fc.toNat none hFR hFC
        · rw [heq]
          dsimp only
          exact getCell_setCell_self' _ hWF1 tr.toNat tc.toNat none
            (by rw [setCell_size]; exact hTR) (by rw [setCell_size]; exact hTC)

/-- Folding a sequence of `Board.move_piece` calls over a board. -/
def applyMoves (b : Board) (ms : List (Int × Int × Int × Int)) : Board :=
  ms.foldl (fun bd m => (move_piece bd m.1 m.2.1 m.2.2.1 m.2.2.2).2) b

/-- A single `move_piece` call never increases the piece count. -/
theorem totalPieces_move_le (b : Board) (hWF : b.WF) (fr fc tr tc : Int) :
    totalPieces (move_piece b fr fc tr tc).2 ≤ totalPieces b := by
  rcases move_piece_count_cases b hWF fr fc tr tc with ⟨_, h2⟩ | ⟨_, hcase⟩
  · rw [h2]
  · rcases hcase with ⟨_, h⟩ | ⟨p, q, _, _, hcomb⟩
    · omega
    · rcases hcomb with ⟨_, h⟩ | ⟨_, h, _⟩ <;> omega

/-- No sequence of moves increases the piece count. -/
theorem applyMoves_le (ms : List (Int × Int × Int × Int)) :
    ∀ b : Board, b.WF → totalPieces (applyMoves b ms) ≤ totalPieces b := by
  induction ms with
  | nil =>
    intro b _
    simp [applyMoves]
  | cons m ms ih =>
    intro b hWF
    have h1 := totalPieces_move_le b hWF m.1 m.2.1 m.2.2.1 m.2.2.2
    have h2 := ih (move_piece b m.1 m.2.1 m.2.2.1 m.2.2.2).2
      (move_piece_WF b m.1 m.2.1 m.2.2.1 m.2.2.2 hWF)
    calc totalPieces (applyMoves b (m :: ms))
        = totalPieces (applyMoves (move_piece b m.1 m.2.1 m.2.2.1 m.2.2.2).2 ms) := by
          simp [applyMoves]
      _ ≤ totalPieces b := le_trans h2 h1

/-- C5: an accepted move whose combat resolves as a draw clears both the
attacker's origin cell and the defender's cell and lowers the total piece
count by exactly 2. -/
theorem move_piece_draw_removes_both (b : Board) (fr fc tr tc : Int) (p q : Piece)
    (hWF : b.WF)
    (hsrc : getCell b fr.toNat fc.toNat = some p)
    (hdst : getCell b tr.toNat tc.toNat = some q)
    (hacc : (move_piece b fr fc tr tc).1.1 = true)
    (hdraw : resolve_combat p q = 0) :
    getCell (move_piece b fr fc tr tc).2 fr.toNat fc.toNat = none ∧
    getCell (move_piece b fr fc tr tc).2 tr.toNat tc.toNat = none ∧
    totalPieces (move_piece b fr fc tr tc).2 + 2 = totalPieces b := by
  rcases move_piece_count_cases b hWF fr fc tr tc with ⟨hf, _⟩ | ⟨_, hcase⟩
  · rw [hacc] at hf
    simp at hf
  · rcases hcase with ⟨hnone, _⟩ | ⟨p', q', hsrc', hdst', hcomb⟩
    · rw [hdst] at hnone
      simp at hnone
    · rw [hsrc] at hsrc'
      rw [hdst] at hdst'
      obtain rfl : p = p' := Option.some_inj.mp hsrc'
      obtain rfl : q = q' := Option.some_inj.mp hdst'
      rcases hcomb with ⟨hne, _⟩ | ⟨_, h2, h3, h4⟩
      · exact absurd hdraw hne
      · exact ⟨h3, h4, h2⟩

/-- A tiny concrete well-formed board: same-type enemy pieces side by
side, used to witness the combat theorems. -/
def boardRR : Board :=
  { size := 2,
    grid := [[some ⟨PieceType.R, 1⟩, some ⟨PieceType.R, 2⟩], [none, none]] }

/-- Witness for C5 on `boardRR`: Rock(P1) at (0,0) onto Rock(P2) at (0,1). -/
theorem move_piece_draw_removes_both_witness :
    getCell (move_piece boardRR 0 0 0 1).2 (0 : Int).toNat (0 : Int).toNat = none ∧
    getCell (move_piece boardRR 0 0 0 1).2 (0 : Int).toNat (1 : Int).toNat = none ∧
    totalPieces (move_piece boardRR 0 0 0 1).2 + 2 = totalPieces boardRR :=
  move_piece_draw_removes_both boardRR 0 0 0 1 ⟨PieceType.R, 1⟩ ⟨PieceType.R, 2⟩
    (by decide) (by decide) (by decide) (by decide) (by decide)

/-- C6: the total piece count is non-increasing under `Board.move_piece`:
rejected moves leave the board unchanged, accepted relocations keep the
count, a won combat removes exactly one piece, a draw removes exactly
two, and any sequence of moves keeps the count at most the initial one. -/
theorem move_piece_total_monotone (b : Board) (hWF : b.WF) :
    (∀ fr fc tr tc : Int, (move_piece b fr fc tr tc).1.1 = false →
        (move_piece b fr fc tr tc).2 = b) ∧
    (∀ fr fc tr tc : Int, (move_piece b fr fc tr tc).1.1 = true →
        getCell b tr.toNat tc.toNat = none →
        totalPieces (move_piece b fr fc tr tc).2 = totalPieces b) ∧
    (∀ fr fc tr tc : Int, ∀ p q : Piece, (move_piece b fr fc tr tc).1.1 = true →
        getCell b fr.toNat fc.toNat = some p →
        getCell b tr.toNat tc.toNat = some q →
        resolve_combat p q ≠ 0 →
        totalPieces (move_piece b fr fc tr tc).2 + 1 = totalPieces b) ∧
    (∀ fr fc tr tc : Int, ∀ p q : Piece, (move_piece b fr fc tr tc).1.1 = true →
        getCell b fr.toNat fc.toNat = some p →
        getCell b tr.toNat tc.toNat = some q →
        resolve_combat p q = 0 →
        totalPieces (move_piece b fr fc tr tc).2 + 2 = totalPieces b) ∧
    (∀ ms : List (Int × Int × Int × Int), totalPieces (applyMoves b ms) ≤ totalPieces b) := by
  refine ⟨?_, ?_, ?_, ?_, fun ms => applyMoves_le ms b hWF⟩
  · intro fr fc tr tc hrej
    rcases move_piece_count_cases b hWF fr fc tr tc with ⟨_, h2⟩ | ⟨hacc, _⟩
    · exact h2
    · rw [hrej] at hacc
      simp at hacc
  · intro fr fc tr tc hacc hdst
    rcases move_piece_count_cases b hWF fr fc tr tc with ⟨hf, _⟩ | ⟨_, hcase⟩
    · rw [hacc] at hf
      simp at hf
    · rcases hcase with ⟨_, h⟩ | ⟨p, q, _, hdst', _⟩
      · exact h
      · rw [hdst] at hdst'
        simp at hdst'
  · intro fr fc tr tc p q hacc hsrc hdst hres
    rcases move_piece_count_cases b hWF fr fc tr tc with ⟨hf, _⟩ | ⟨_, hcase⟩
    · rw [hacc] at hf
      simp at hf
    · rcases hcase with ⟨hnone, _⟩ | ⟨p', q', hsrc', hdst', hcomb⟩
      · rw [hdst] at hnone
        simp at hnone
      · rw [hsrc] at hsrc'
        rw [hdst] at hdst'
        obtain rfl : p = p' := Option.some_inj.mp hsrc'
        obtain rfl : q = q' := Option.some_inj.mp hdst'
        rcases hcomb with ⟨_, h⟩ | ⟨h0, _⟩
        · exact h
        · exact absurd h0 hres
  · intro fr fc tr tc p q hacc hsrc hdst hres
    rcases move_piece_count_cases b hWF fr fc tr tc with ⟨hf, _⟩ | ⟨_, hcase⟩
    · rw [hacc] at hf
      simp at hf
    · rcases hcase with ⟨hnone, _⟩ | ⟨p', q', hsrc', hdst', hcomb⟩
      · rw [hdst] at hnone
        simp at hnone
      · rw [hsrc] at hsrc'
        rw [hdst] at hdst'
        obtain rfl : p = p' := Option.some_inj.mp hsrc'
        obtain rfl : q = q' := Option.some_inj.mp hdst'
        rcases hcomb with ⟨hne, _⟩ | ⟨_, h, _⟩
        · exact absurd hres hne
        · exact h

/-- Witness for C6 on `boardRR`. -/
theorem move_piece_total_monotone_witness :
    (∀ fr fc tr tc : Int, (move_piece boardRR fr fc tr tc).1.1 = false →
        (move_piece boardRR fr fc tr tc).2 = boardRR) ∧
    (∀ fr fc tr tc : Int, (move_piece boardRR fr fc tr tc).1.1 = true →
        getCell boardRR tr.toNat tc.toNat = none →
        totalPieces (move_piece boardRR fr fc tr tc).2 = totalPieces boardRR) ∧
    (∀ fr fc tr tc : Int, ∀ p q : Piece, (move_piece boardRR fr fc tr tc).1.1 = true →
        getCell boardRR fr.toNat fc.toNat = some p →
        getCell boardRR tr.toNat tc.toNat = some q →
        resolve_combat p q ≠ 0 →
        totalPieces (move_piece boardRR fr fc tr tc).2 + 1 = totalPieces boardRR) ∧
    (∀ fr fc tr tc : Int, ∀ p q : Piece, (move_piece boardRR fr fc tr tc).1.1 = true →
        getCell boardRR fr.toNat fc.toNat = some p →
        getCell boardRR tr.toNat tc.toNat = some q →
        resolve_combat p q = 0 →
        totalPieces (move_piece boardRR fr fc tr tc).2 + 2 = totalPieces boardRR) ∧
    (∀ ms : List (Int × Int × Int × Int),
        totalPieces (applyMoves boardRR ms) ≤ totalPieces boardRR) :=
  move_piece_total_monotone boardRR (by decide)

/-- A non-negative in-range Python index resolves to itself. -/
theorem pyIdx_pos (n : Nat) (i : Int) (h0 : 0 ≤ i) (h1 : i < (n : Int)) :
    pyIdx n i = some i.toNat := by
  unfold pyIdx
  rw [if_pos ⟨h0, h1⟩]

/-- A Python index outside `[-n, n)` raises (`none`). -/
theorem pyIdx_none (n : Nat) (i : Int) (h : i < -(n : Int) ∨ (n : Int) ≤ i) :
    pyIdx n i = none := by
  unfold pyIdx
  rw [if_neg (by omega), if_neg (by omega)]

/-- A Python index inside `[-n, n)` resolves to some in-range index. -/
theorem pyIdx_some (n : Nat) (i : Int) (h0 : -(n : Int) ≤ i) (h1 : i < (n : Int)) :
    ∃ j, pyIdx n i = some j ∧ j < n := by
  unfold pyIdx
  by_cases hp : 0 ≤ i ∧ i < (n : Int)
  · rw [if_pos hp]
    exact ⟨i.toNat, rfl, by omega⟩
  · rw [if_neg hp, if_pos ⟨h0, by omega⟩]
    exact ⟨(i + n).toNat, rfl, by omega⟩

/-- On a well-formed board, reading an in-bounds cell with Python
semantics never raises and agrees with `getCell`. -/
theorem pyGetCell_inbounds (b : Board) (hWF : b.WF) (r c : Int)
    (hr0 : 0 ≤ r) (hr1 : r < (b.size : Int)) (hc0 : 0 ≤ c) (hc1 : c < (b.size : Int)) :
    pyGetCell b r c = some (getCell b r.toNat c.toNat) := by
  have hlen : b.grid.length = b.size := hWF.1
  have hr' : r.toNat < b.grid.length := by omega
  have hrowlen : (b.grid[r.toNat]).length = b.size := hWF.2 _ (List.getElem_mem hr')
  have hc' : c.toNat < (b.grid[r.toNat]).length := by rw [hrowlen]; omega
  unfold pyGetCell
  rw [pyIdx_pos _ _ hr0 (by omega)]
  dsimp only
  rw [List.getElem?_eq_getElem hr']
  dsimp only
  rw [pyIdx_pos _ _ hc0 (by rw [hrowlen]; omega)]
  dsimp only
  rw [List.getElem?_eq_getElem hc']
  unfold getCell
  rw [List.getElem?_eq_getElem hr']
  simp [List.getElem?_eq_getElem hc', Option.join]

/-- Success characterization of `Board.move_piece`. -/
theorem move_piece_success_iff (b : Board) (fr fc tr tc : Int) :
    (move_piece b fr fc tr tc).1.1 = true ↔
      ((0 ≤ fr ∧ fr < b.size ∧ 0 ≤ fc ∧ fc < b.size ∧
        0 ≤ tr ∧ tr < b.size ∧ 0 ≤ tc ∧ tc < b.size) ∧
       (tr - fr).natAbs + (tc - fc).natAbs = 1 ∧
       ∃ p, getCell b fr.toNat fc.toNat = some p ∧
         ∀ q, getCell b tr.toNat tc.toNat = some q → q.player_id ≠ p.player_id) := by
  rw [move_piece]
  split
  case isTrue hb =>
    constructor
    · intro h
      simp at h
    · rintro ⟨hbnd, _⟩
      exact absurd hbnd hb
  case isFalse hb =>
    push_neg at hb
    obtain ⟨h1, h2, h3, h4, h5, h6, h7, h8⟩ := hb
    split
    case h_1 hsrc =>
      constructor
      · intro h
        simp at h
      · rintro ⟨_, _, p, hp, _⟩
        rw [hsrc] at hp
        simp at hp
    case h_2 p hsrc =>
      split
      case isTrue hdist =>
        constructor
        · intro h
          simp at h
        · rintro ⟨_, hd, _⟩
          exact absurd hd hdist
      case isFalse hdist =>
        rw [Decidable.not_not] at hdist
        split
        case h_1 hdst =>
          constructor
          · intro _
            refine ⟨⟨h1, h2, h3, h4, h5, h6, h7, h8⟩, hdist, p, hsrc, ?_⟩
            intro q hq
            rw [hdst] at hq
            simp at hq
          · intro _
            rfl
        case h_2 q hdst =>
          split
          case isTrue hown =>
            constructor
            · intro h
              simp at h
            · rintro ⟨_, _, p', hp', hne⟩
              rw [hsrc] at hp'
              obtain rfl : p = p' := Option.some_inj.mp hp'
              exact absurd hown (hne q hdst)
          case isFalse hown =>
            have hLHS : ((if resolve_combat p q = 1 then
                ((true, some q, combatTypeOf p q),
                  setCell (setCell b tr.toNat tc.toNat (some p)) fr.toNat fc.toNat none)
              else if resolve_combat p q = -1 then
                ((true, some p, combatTypeOf p q), setCell b fr.toNat fc.toNat none)
              else
                ((true, some p, combatTypeOf p q),
                  setCell (setCell b fr.toNat fc.toNat none) tr.toNat tc.toNat
                    none)) : (Bool × Option Piece × String) × Board).1.1 = true := by
              split
              · rfl
              · split <;> rfl
            constructor
            · intro _
              refine ⟨⟨h1, h2, h3, h4, h5, h6, h7, h8⟩, hdist, p, hsrc, ?_⟩
              intro q' hq'
              rw [hdst] at hq'
              obtain rfl : q = q' := Option.some_inj.mp hq'
              exact fun heq => hown heq
            · intro _
              exact hLHS

/-- C2: `Game.play_turn` returns success exactly when the source cell is
in bounds, non-empty and owned by the current player, the destination is
in bounds at Manhattan distance 1, and the destination does not hold a
piece of the current player. -/
theorem play_turn_accepts_iff (g : Game) (cp : Player) (fr fc tr tc : Int)
    (hWF : g.board.WF)
    (hcp : g.players[g.current_player_index]? = some cp) :
    (∃ ct g', play_turn g fr fc tr tc = some ((true, ct), g')) ↔
      ((0 ≤ fr ∧ fr < (g.board.size : Int) ∧ 0 ≤ fc ∧ fc < (g.board.size : Int)) ∧
       (0 ≤ tr ∧ tr < (g.board.size : Int) ∧ 0 ≤ tc ∧ tc < (g.board.size : Int)) ∧
       (∃ p, getCell g.board fr.toNat fc.toNat = some p ∧ p.player_id = cp.id) ∧
       (tr - fr).natAbs + (tc - fc).natAbs = 1 ∧
       ¬ (∃ q, getCell g.board tr.toNat tc.toNat = some q ∧ q.player_id = cp.id)) := by
  constructor
  · rintro ⟨ct, g', hpt⟩
    unfold play_turn at hpt
    rw [hcp] at hpt
    dsimp only at hpt
    split at hpt
    case h_1 => simp at hpt
    case h_2 => simp at hpt
    case h_3 p hpy =>
      split at hpt
      case isTrue => simp at hpt
      case isFalse hown =>
        rw [Decidable.not_not] at hown
        split at hpt
        case isFalse => simp at hpt
        case isTrue hsucc =>
          obtain ⟨hbnd, hdist, p', hsrc', hne⟩ := (move_piece_success_iff _ _ _ _ _).mp hsucc
          obtain ⟨h1, h2, h3, h4, h5, h6, h7, h8⟩ := hbnd
          have hpy' : pyGetCell g.board fr fc = some (getCell g.board fr.toNat fc.toNat) :=
            pyGetCell_inbounds g.board hWF fr fc h1 h2 h3 h4
          rw [hpy] at hpy'
          have hsrcp : getCell g.board fr.toNat fc.toNat = some p :=
            (Option.some_inj.mp hpy'.symm)
          obtain rfl : p' = p := by
            rw [hsrc'] at hsrcp
            exact Option.some_inj.mp hsrcp
          refine ⟨⟨h1, h2, h3, h4⟩, ⟨h5, h6, h7, h8⟩, ⟨p', hsrc', hown⟩, hdist, ?_⟩
          rintro ⟨q, hq, hqid⟩
          exact hne q hq (by rw [hqid, ← hown])
  · rintro ⟨⟨h1, h2, h3, h4⟩, ⟨h5, h6, h7, h8⟩, ⟨p, hsrc, hpid⟩, hdist, hdest⟩
    have hsucc : (move_piece g.board fr fc tr tc).1.1 = true := by
      rw [move_piece_success_iff]
      refine ⟨⟨h1, h2, h3, h4, h5, h6, h7, h8⟩, hdist, p, hsrc, ?_⟩
      intro q hq heq
      exact hdest ⟨q, hq, by rw [heq, hpid]⟩
    have hpy : pyGetCell g.board fr fc = some (getCell g.board fr.toNat fc.toNat) :=
      pyGetCell_inbounds g.board hWF fr fc h1 h2 h3 h4
    rw [hsrc] at hpy
    unfold play_turn
    rw [hcp]
    dsimp only
    rw [hpy]
    dsimp only
    rw [if_neg (fun hcon => hcon hpid), if_pos hsucc]
    exact ⟨_, _, rfl⟩

/-- A two-player game over the tiny `boardRR` position, player 1 to move. -/
def gameRR : Game :=
  { board := boardRR,
    num_players := 2,
    players := [Player.init 1 "Player 1" [PieceType.R, PieceType.P, PieceType.S] 4,
                Player.init 2 "Player 2" [PieceType.R, PieceType.P, PieceType.S] 4],
    current_player_index := 0,
    game_over := false,
    winner := none,
    turn_timer := TURN_TIME }

/-- Witness for C2 on `gameRR`: the move (0,0) → (0,1) is accepted and
meets all the legality conditions. -/
theorem play_turn_accepts_iff_witness :
    (∃ ct g', play_turn gameRR 0 0 0 1 = some ((true, ct), g')) ↔
      ((0 ≤ (0 : Int) ∧ (0 : Int) < (gameRR.board.size : Int) ∧
        0 ≤ (0 : Int) ∧ (0 : Int) < (gameRR.board.size : Int)) ∧
       (0 ≤ (0 : Int) ∧ (0 : Int) < (gameRR.board.size : Int) ∧
        0 ≤ (1 : Int) ∧ (1 : Int) < (gameRR.board.size : Int)) ∧
       (∃ p, getCell gameRR.board (0 : Int).toNat (0 : Int).toNat = some p ∧
         p.player_id = (Player.init 1 "Player 1"
           [PieceType.R, PieceType.P, PieceType.S] 4).id) ∧
       ((0 : Int) - 0).natAbs + ((1 : Int) - 0).natAbs = 1 ∧
       ¬ (∃ q, getCell gameRR.board (0 : Int).toNat (1 : Int).toNat = some q ∧
         q.player_id = (Player.init 1 "Player 1"
           [PieceType.R, PieceType.P, PieceType.S] 4).id)) :=
  play_turn_accepts_iff gameRR
    (Player.init 1 "Player 1" [PieceType.R, PieceType.P, PieceType.S] 4)
    0 0 0 1 (by decide) (by decide)

/-- On a well-formed board, any source index in Python's valid range
`[-size, size)` reads a cell without raising. -/
theorem pyGetCell_some (b : Board) (hWF : b.WF) (r c : Int)
    (hr0 : -(b.size : Int) ≤ r) (hr1 : r < (b.size : Int))
    (hc0 : -(b.size : Int) ≤ c) (hc1 : c < (b.size : Int)) :
    ∃ v, pyGetCell b r c = some v := by
  have hlen := hWF.1
  obtain ⟨ri, hri, hri'⟩ := pyIdx_some b.grid.length r (by omega) (by omega)
  unfold pyGetCell
  rw [hri]
  dsimp only
  rw [List.getElem?_eq_getElem hri']
  dsimp only
  have hrowlen : (b.grid[ri]).length = b.size := hWF.2 _ (List.getElem_mem hri')
  obtain ⟨ci, hci, hci'⟩ := pyIdx_some (b.grid[ri]).length c (by omega) (by omega)
  rw [hci]
  exact ⟨_, List.getElem?_eq_getElem hci'⟩

/-- On a well-formed board, a source index outside Python's valid range
raises an `IndexError`. -/
theorem pyGetCell_oob (b : Board) (hWF : b.WF) (r c : Int)
    (h : r < -(b.size : Int) ∨ (b.size : Int) ≤ r ∨
         c < -(b.size : Int) ∨ (b.size : Int) ≤ c) :
    pyGetCell b r c = none := by
  have hlen := hWF.1
  by_cases hr : r < -(b.size : Int) ∨ (b.size : Int) ≤ r
  · unfold pyGetCell
    rw [pyIdx_none _ _ (by omega)]
  · have hc : c < -(b.size : Int) ∨ (b.size : Int) ≤ c := by
      rcases h with h1 | h1 | h1 | h1
      · exact absurd (Or.inl h1) hr
      · exact absurd (Or.inr h1) hr
      · exact Or.inl h1
      · exact Or.inr h1
    push_neg at hr
    obtain ⟨ri, hri, hri'⟩ := pyIdx_some b.grid.length r (by omega) (by omega)
    unfold pyGetCell
    rw [hri]
    dsimp only
    rw [List.getElem?_eq_getElem hri']
    dsimp only
    have hrowlen : (b.grid[ri]).length = b.size := hWF.2 _ (List.getElem_mem hri')
    rw [pyIdx_none _ _ (by omega)]

/-- C3 (amended): `Board.move_piece` reports every illegal move as a
plain `false` with the board untouched and never raises (it is total);
`Game.play_turn` does the same as long as the source coordinates lie in
Python's index range `[-size, size)`, but raises an `IndexError`
(modelled as `none`) whenever a source coordinate falls outside that
range. -/
theorem illegal_move_no_mutation :
    (∀ b : Board, ∀ fr fc tr tc : Int,
        (move_piece b fr fc tr tc).1.1 = false → (move_piece b fr fc tr tc).2 = b) ∧
    (∀ g : Game, ∀ cp : Player, ∀ fr fc tr tc : Int, g.board.WF →
        g.players[g.current_player_index]? = some cp →
        -(g.board.size : Int) ≤ fr → fr < (g.board.size : Int) →
        -(g.board.size : Int) ≤ fc → fc < (g.board.size : Int) →
        ∃ r, play_turn g fr fc tr tc = some r ∧ (r.1.1 = false → r.2 = g)) ∧
    (∀ g : Game, ∀ cp : Player, ∀ fr fc tr tc : Int, g.board.WF →
        g.players[g.current_player_index]? = some cp →
        (fr < -(g.board.size : Int) ∨ (g.board.size : Int) ≤ fr ∨
         fc < -(g.board.size : Int) ∨ (g.board.size : Int) ≤ fc) →
        play_turn g fr fc tr tc = none) := by
  have hreject : ∀ (b : Board) (fr fc tr tc : Int),
      (move_piece b fr fc tr tc).1.1 = false → (move_piece b fr fc tr tc).2 = b := by
    intro b fr fc tr tc hs
    rcases move_piece_spec b fr fc tr tc with ⟨_, h2⟩ | ⟨_, _, p', _, hcase⟩
    · exact h2
    · exfalso
      have : (move_piece b fr fc tr tc).1.1 = true := by
        rcases hcase with ⟨_, heq⟩ | ⟨q, _, _, hcomb⟩
        · rw [heq]
        · rcases hcomb with ⟨_, heq⟩ | ⟨_, heq⟩ | ⟨_, heq⟩ <;> rw [heq]
      rw [this] at hs
      simp at hs
  refine ⟨hreject, ?_, ?_⟩
  · intro g cp fr fc tr tc hWF hcp hr0 hr1 hc0 hc1
    obtain ⟨v, hv⟩ := pyGetCell_some g.board hWF fr fc hr0 hr1 hc0 hc1
    unfold play_turn
    rw [hcp]
    dsimp only
    rw [hv]
    cases v with
    | none => exact ⟨((false, ""), g), rfl, fun _ => rfl⟩
    | some p =>
      dsimp only
      by_cases hown : p.player_id ≠ cp.id
      · rw [if_pos hown]
        exact ⟨((false, ""), g), rfl, fun _ => rfl⟩
      · rw [if_neg hown]
        by_cases hs : (move_piece g.board fr fc tr tc).1.1 = true
        · rw [if_pos hs]
          refine ⟨_, rfl, ?_⟩
          intro hf
          simp at hf
        · rw [if_neg hs]
          refine ⟨_, rfl, ?_⟩
          intro _
          have h2 : (move_piece g.board fr fc tr tc).2 = g.board :=
            hreject g.board fr fc tr tc (Bool.not_eq_true _ ▸ hs)
          show ({ g with board := (move_piece g.board fr fc tr tc).2 } : Game) = g
          rw [h2]
  · intro g cp fr fc tr tc hWF hcp hout
    unfold play_turn
    rw [hcp]
    dsimp only
    rw [pyGetCell_oob g.board hWF fr fc hout]

/-- Counterexample to C3 as stated: on a fresh two-player game,
`play_turn(6, 0, 5, 0)` raises an `IndexError` (`grid[6]` on a 6-row
grid) instead of returning a boolean failure. -/
theorem play_turn_raises_cex : play_turn game2 6 0 5 0 = none := by
  decide

/-- Witness for C3 on `game2`: an in-index-range illegal move (empty
source cell) is reported as `false` with the game unchanged. -/
theorem illegal_move_no_mutation_witness :
    ∃ r, play_turn game2 0 0 0 1 = some r ∧ (r.1.1 = false → r.2 = game2) :=
  illegal_move_no_mutation.2.1 game2
    (Player.init 1 "Player 1" [PieceType.R, PieceType.P, PieceType.S] 4)
    0 0 0 1 (by decide) (by decide) (by decide) (by decide) (by decide) (by decide)

/-- When the source cell is occupied, the `get_valid_moves` loop never
raises and only accumulates in-bounds, distance-1, empty-or-enemy
destinations. -/
theorem validMovesLoop_occupied (g : Game) (row col : Int) (p : Piece)
    (hWF : g.board.WF) (hr0 : 0 ≤ row) (hr1 : row < (g.board.size : Int))
    (hc0 : 0 ≤ col) (hc1 : col < (g.board.size : Int))
    (hsrc : getCell g.board row.toNat col.toNat = some p) :
    ∀ dirs acc, (∀ d ∈ dirs, d.1.natAbs + d.2.natAbs = 1) →
      (∀ d ∈ acc,
        (0 ≤ d.1 ∧ d.1 < (g.board.size : Int) ∧ 0 ≤ d.2 ∧ d.2 < (g.board.size : Int)) ∧
        (d.1 - row).natAbs + (d.2 - col).natAbs = 1 ∧
        (getCell g.board d.1.toNat d.2.toNat = none ∨
          ∃ q, getCell g.board d.1.toNat d.2.toNat = some q ∧
            q.player_id ≠ p.player_id)) →
      ∃ l, validMovesLoop g row col dirs acc = some l ∧
        ∀ d ∈ l,
          (0 ≤ d.1 ∧ d.1 < (g.board.size : Int) ∧ 0 ≤ d.2 ∧ d.2 < (g.board.size : Int)) ∧
          (d.1 - row).natAbs + (d.2 - col).natAbs = 1 ∧
          (getCell g.board d.1.toNat d.2.toNat = none ∨
            ∃ q, getCell g.board d.1.toNat d.2.toNat = some q ∧
              q.player_id ≠ p.player_id) := by
  intro dirs
  induction dirs with
  | nil =>
    intro acc _ hacc
    exact ⟨acc, rfl, hacc⟩
  | cons d dirs ih =>
    intro acc hdirs hacc
    have hd1 : d.1.natAbs + d.2.natAbs = 1 := hdirs d (List.mem_cons_self d dirs)
    have hdirs' : ∀ e ∈ dirs, e.1.natAbs + e.2.natAbs = 1 :=
      fun e he => hdirs e (List.mem_cons_of_mem d he)
    simp only [validMovesLoop]
    by_cases hb : 0 ≤ row + d.1 ∧ row + d.1 < (g.board.size : Int) ∧
        0 ≤ col + d.2 ∧ col + d.2 < (g.board.size : Int)
    · rw [if_pos hb]
      cases hn : getCell g.board (row + d.1).toNat (col + d.2).toNat with
      | none =>
        apply ih _ hdirs'
        intro e he
        rcases List.mem_append.mp he with he | he
        · exact hacc e he
        · obtain rfl : e = (row + d.1, col + d.2) := by simpa using he
          exact ⟨hb, by omega, Or.inl hn⟩
      | some target =>
        rw [pyGetCell_inbounds g.board hWF row col hr0 hr1 hc0 hc1, hsrc]
        dsimp only
        by_cases hown : target.player_id ≠ p.player_id
        · rw [if_pos hown]
          apply ih _ hdirs'
          intro e he
          rcases List.mem_append.mp he with he | he
          · exact hacc e he
          · obtain rfl : e = (row + d.1, col + d.2) := by simpa using he
            exact ⟨hb, by omega, Or.inr ⟨target, hn, hown⟩⟩
        · rw [if_neg hown]
          exact ih acc hdirs' hacc
    · rw [if_neg hb]
      exact ih acc hdirs' hacc

/-- When the source cell is empty, the `get_valid_moves` loop raises
exactly when some direction hits an occupied in-bounds neighbor (the
short-circuit `or` then evaluates `None.player_id`). -/
theorem validMovesLoop_empty_source (g : Game) (row col : Int)
    (hWF : g.board.WF) (hr0 : 0 ≤ row) (hr1 : row < (g.board.size : Int))
    (hc0 : 0 ≤ col) (hc1 : col < (g.board.size : Int))
    (hsrc : getCell g.board row.toNat col.toNat = none) :
    ∀ dirs acc, (validMovesLoop g row col dirs acc = none ↔
      ∃ d ∈ dirs,
        (0 ≤ row + d.1 ∧ row + d.1 < (g.board.size : Int) ∧
         0 ≤ col + d.2 ∧ col + d.2 < (g.board.size : Int)) ∧
        getCell g.board (row + d.1).toNat (col + d.2).toNat ≠ none) := by
  intro dirs
  induction dirs with
  | nil =>
    intro acc
    simp [validMovesLoop]
  | cons d dirs ih =>
    intro acc
    simp only [validMovesLoop]
    by_cases hb : 0 ≤ row + d.1 ∧ row + d.1 < (g.board.size : Int) ∧
        0 ≤ col + d.2 ∧ col + d.2 < (g.board.size : Int)
    · rw [if_pos hb]
      cases hn : getCell g.board (row + d.1).toNat (col + d.2).toNat with
      | none =>
        rw [ih]
        constructor
        · rintro ⟨e, he, hprop⟩
          exact ⟨e, List.mem_cons_of_mem d he, hprop⟩
        · rintro ⟨e, he, hprop⟩
          rcases List.mem_cons.mp he with rfl | he
          · exact absurd hn hprop.2
          · exact ⟨e, he, hprop⟩
      | some target =>
        rw [pyGetCell_inbounds g.board hWF row col hr0 hr1 hc0 hc1, hsrc]
        dsimp only
        constructor
        · intro _
          exact ⟨d, List.mem_cons_self d dirs, hb, by rw [hn]; simp⟩
        · intro _
          rfl
    · rw [if_neg hb]
      rw [ih]
      constructor
      · rintro ⟨e, he, hprop⟩
        exact ⟨e, List.mem_cons_of_mem d he, hprop⟩
      · rintro ⟨e, he, hprop⟩
        rcases List.mem_cons.mp he with rfl | he
        · exact absurd hprop.1 hb
        · exact ⟨e, he, hprop⟩

/-- C10 (amended): for an in-bounds occupied source cell,
`Game.get_valid_moves` never raises and every returned destination is an
in-bounds orthogonal neighbor that is empty or enemy-owned; for an
in-bounds empty source cell it raises if and only if some in-bounds
orthogonal neighbor is occupied (with only empty in-bounds neighbors the
short-circuit `or` never reads the empty source and the call returns
them all). -/
theorem get_valid_moves_spec (g : Game) (row col : Int) (hWF : g.board.WF)
    (hr0 : 0 ≤ row) (hr1 : row < (g.board.size : Int))
    (hc0 : 0 ≤ col) (hc1 : col < (g.board.size : Int)) :
    (∀ p, getCell g.board row.toNat col.toNat = some p →
      ∃ l, get_valid_moves g row col = some l ∧
        ∀ d ∈ l,
          (0 ≤ d.1 ∧ d.1 < (g.board.size : Int) ∧ 0 ≤ d.2 ∧ d.2 < (g.board.size : Int)) ∧
          (d.1 - row).natAbs + (d.2 - col).natAbs = 1 ∧
          (getCell g.board d.1.toNat d.2.toNat = none ∨
            ∃ q, getCell g.board d.1.toNat d.2.toNat = some q ∧
              q.player_id ≠ p.player_id)) ∧
    (getCell g.board row.toNat col.toNat = none →
      (get_valid_moves g row col = none ↔
        ∃ d ∈ ([(0, 1), (1, 0), (0, -1), (-1, 0)] : List (Int × Int)),
          (0 ≤ row + d.1 ∧ row + d.1 < (g.board.size : Int) ∧
           0 ≤ col + d.2 ∧ col + d.2 < (g.board.size : Int)) ∧
          getCell g.board (row + d.1).toNat (col + d.2).toNat ≠ none)) := by
  constructor
  · intro p hp
    exact validMovesLoop_occupied g row col p hWF hr0 hr1 hc0 hc1 hp
      [(0, 1), (1, 0), (0, -1), (-1, 0)] [] (by decide) (by simp)
  · intro hs
    exact validMovesLoop_empty_source g row col hWF hr0 hr1 hc0 hc1 hs
      [(0, 1), (1, 0), (0, -1), (-1, 0)] []

/-- Counterexample to C10 as stated: on the fresh (empty-board)
two-player game, the source cell (2,2) is empty and has four in-bounds
neighbors, yet `get_valid_moves` returns them all instead of raising —
the short-circuit `or` never evaluates `None.player_id` because every
neighbor is empty. -/
theorem get_valid_moves_empty_source_cex :
    get_valid_moves game2 2 2 = some [(2, 3), (3, 2), (2, 1), (1, 2)] := by
  decide

/-- Witness for C10 on `gameRR` at the occupied cell (0,0) (and the
empty-source direction of the statement holds vacuously there). -/
theorem get_valid_moves_spec_witness :
    (∀ p, getCell gameRR.board (0 : Int).toNat (0 : Int).toNat = some p →
      ∃ l, get_valid_moves gameRR 0 0 = some l ∧
        ∀ d ∈ l,
          (0 ≤ d.1 ∧ d.1 < (gameRR.board.size : Int) ∧
           0 ≤ d.2 ∧ d.2 < (gameRR.board.size : Int)) ∧
          (d.1 - 0).natAbs + (d.2 - 0).natAbs = 1 ∧
          (getCell gameRR.board d.1.toNat d.2.toNat = none ∨
            ∃ q, getCell gameRR.board d.1.toNat d.2.toNat = some q ∧
              q.player_id ≠ p.player_id)) ∧
    (getCell gameRR.board (0 : Int).toNat (0 : Int).toNat = none →
      (get_valid_moves gameRR 0 0 = none ↔
        ∃ d ∈ ([(0, 1), (1, 0), (0, -1), (-1, 0)] : List (Int × Int)),
          (0 ≤ (0 : Int) + d.1 ∧ (0 : Int) + d.1 < (gameRR.board.size : Int) ∧
           0 ≤ (0 : Int) + d.2 ∧ (0 : Int) + d.2 < (gameRR.board.size : Int)) ∧
          getCell gameRR.board ((0 : Int) + d.1).toNat ((0 : Int) + d.2).toNat ≠ none)) :=
  get_valid_moves_spec gameRR 0 0 (by decide) (by decide) (by decide) (by decide) (by decide)

/-- The 2-player `starting_areas` of `Game.setup_board`: top band and
bottom band, 12 cells each. -/
def startingAreas2 : List (List (Nat × Nat)) :=
  [[(0, 0), (0, 1), (0, 2), (0, 3), (0, 4), (0, 5),
    (1, 0), (1, 1), (1, 2), (1, 3), (1, 4), (1, 5)],
   [(4, 0), (4, 1), (4, 2), (4, 3), (4, 4), (4, 5),
    (5, 0), (5, 1), (5, 2), (5, 3), (5, 4), (5, 5)]]

/-- The 3-player `starting_areas`: three corners bands of 8 cells each. -/
def startingAreas3 : List (List (Nat × Nat)) :=
  [[(0, 0), (0, 1), (0, 2), (0, 3), (1, 0), (1, 1), (1, 2), (1, 3)],
   [(0, 4), (0, 5), (1, 4), (1, 5), (2, 4), (2, 5), (3, 4), (3, 5)],
   [(4, 0), (4, 1), (4, 2), (4, 3), (5, 0), (5, 1), (5, 2), (5, 3)]]

/-- The `starting_areas` variable after the player-count adjustment. -/
def startingAreas (num_players : Nat) : List (List (Nat × Nat)) :=
  if num_players = 3 then startingAreas3 else startingAreas2

/-- The pieces sitting on a given list of cells. -/
def piecesOn (b : Board) (cells : List (Nat × Nat)) : List Piece :=
  cells.filterMap fun rc => getCell b rc.1 rc.2

/-- The `for _ in range(4 * 3)` placement loop of `Game.setup_board` for
one player: stop when the area is exhausted, draw a random piece
(`ks` supplies the randint oracle values), pop the last cell of the
shuffled area, place.  Returns the board, the player (with its consumed
inventory) and the leftover area. -/
def setupPlayerLoop : Nat → Board → Player → List (Nat × Nat) → List Nat →
    Board × Player × List (Nat × Nat)
  | 0, b, pl, area, _ => (b, pl, area)
  | Nat.succ n, b, pl, area, ks =>
    if area.isEmpty then (b, pl, area)
    else
      let r1 := get_random_piece pl (ks.headD 0)
      match r1.1 with
      | none => setupPlayerLoop n b r1.2 area ks.tail
      | some piece =>
        let rc := area.getLast?.getD (0, 0)
        let r2 := place_piece b (rc.1 : Int) (rc.2 : Int) piece
        setupPlayerLoop n r2.2 r1.2 area.dropLast ks.tail

/-- The outer `for player_id, player in enumerate(self.players, 1)` loop:
each player consumes the head of `shuffles` (its shuffled area) and of
`picks` (its randint oracle). -/
def setupPlayers : Board → List Player → List (List (Nat × Nat)) → List (List Nat) →
    Board × List Player
  | b, [], _, _ => (b, [])
  | b, pl :: pls, shuffles, picks =>
    let r1 := setupPlayerLoop 12 b pl (shuffles.headD []) (picks.headD [])
    let r2 := setupPlayers r1.1 pls shuffles.tail picks.tail
    (r2.1, r1.2.1 :: r2.2)

/-- `Game.setup_board`, parameterized by the `random.shuffle` outcomes
(`shuffles`, one permuted area per player) and the `random.randint`
oracles (`picks`). -/
def setup_board (g : Game) (shuffles : List (List (Nat × Nat)))
    (picks : List (List Nat)) : Game :=
  let r := setupPlayers g.board g.players shuffles picks
  { g with board := r.1, players := r.2 }

/-- The freshly constructed three-player game, before board setup. -/
def game3 : Game :=
  { board := { size := 6, grid := List.replicate 6 (List.replicate 6 none) },
    num_players := 3,
    players := [Player.init 1 "Player 1" [PieceType.R, PieceType.P, PieceType.S] 4,
                Player.init 2 "Player 2" [PieceType.R, PieceType.P, PieceType.S] 4,
                Player.init 3 "Player 3" [PieceType.R, PieceType.P, PieceType.S] 4],
    current_player_index := 0,
    game_over := false,
    winner := none,
    turn_timer := TURN_TIME }

/-- `game3` is exactly what `Game.__init__` builds for three players. -/
theorem game3_eq_init : Game.init 3 = some game3 := by
  decide

/-- All cells of a board, row-major, mirroring the scan order of
`Board.get_player_pieces`. -/
def allCells (b : Board) : List (Nat × Nat) :=
  (List.range b.size).flatMap fun r => (List.range b.size).map fun c => (r, c)

/-- One entry of the `get_player_pieces` scan, as an `Option`. -/
def ppEntry (b : Board) (player_id : Nat) (rc : Nat × Nat) : Option (Nat × Nat × Piece) :=
  match getCell b rc.1 rc.2 with
  | some p => if p.player_id = player_id then some (rc.1, rc.2, p) else none
  | none => none

/-- Replacing a singleton-or-empty `flatMap` by `filterMap`. -/
theorem flatMap_toList_eq_filterMap (L : List α) (h : α → Option β) :
    (L.flatMap fun a => (h a).toList) = L.filterMap h := by
  induction L with
  | nil => rfl
  | cons a L ih =>
    simp only [List.flatMap_cons, List.filterMap_cons]
    cases h a <;> simp [ih]

/-- `Board.get_player_pieces` as a `filterMap` over the row-major cell
enumeration. -/
theorem get_player_pieces_eq_filterMap (b : Board) (pid : Nat) :
    get_player_pieces b pid = (allCells b).filterMap (ppEntry b pid) := by
  unfold get_player_pieces allCells
  rw [List.filterMap_flatMap]
  congr 1
  funext r
  rw [List.filterMap_map]
  rw [← flatMap_toList_eq_filterMap]
  congr 1
  funext c
  dsimp only [Function.comp]
  unfold ppEntry
  dsimp only
  cases getCell b r c with
  | none => rfl
  | some p =>
    dsimp only
    by_cases hp : p.player_id = pid
    · rw [if_pos hp, if_pos hp]
      rfl
    · rw [if_neg hp, if_neg hp]
      rfl

/-- The row-major cell enumeration has no duplicates. -/
theorem allCells_nodup (b : Board) : (allCells b).Nodup := by
  unfold allCells
  rw [List.nodup_flatMap]
  constructor
  · intro r _
    exact (List.nodup_range _).map fun c1 c2 h => congrArg Prod.snd h
  · have hlt := List.pairwise_lt_range b.size
    apply hlt.imp
    intro r1 r2 hr x hx1 hx2
    simp only [List.mem_map, List.mem_range] at hx1 hx2
    obtain ⟨c1, _, rfl⟩ := hx1
    obtain ⟨c2, _, h2⟩ := hx2
    exact absurd (congrArg Prod.fst h2.symm) (by simpa using Nat.ne_of_lt hr)

/-- Membership in the cell enumeration is exactly in-boundedness. -/
theorem mem_allCells (b : Board) (rc : Nat × Nat) :
    rc ∈ allCells b ↔ rc.1 < b.size ∧ rc.2 < b.size := by
  unfold allCells
  simp only [List.mem_flatMap, List.mem_map, List.mem_range]
  constructor
  · rintro ⟨r, hr, c, hc, rfl⟩
    exact ⟨hr, hc⟩
  · rintro ⟨h1, h2⟩
    exact ⟨rc.1, h1, rc.2, h2, rfl⟩

/-- Splitting any list along a sublist, up to permutation. -/
theorem exists_perm_append_of_sublist {l L : List α} (h : l.Sublist L) :
    ∃ r, L.Perm (l ++ r) := by
  induction h with
  | slnil => exact ⟨[], List.Perm.refl _⟩
  | cons a _ ih =>
    obtain ⟨r, hr⟩ := ih
    exact ⟨a :: r, (hr.cons a).trans List.perm_middle.symm⟩
  | cons₂ a _ ih =>
    obtain ⟨r, hr⟩ := ih
    exact ⟨r, (hr.cons a)⟩

/-- A list permutes to its indexed element consed on the index removal. -/
theorem perm_getElem_cons_eraseIdx (l : List α) (i : Nat) (h : i < l.length) :
    l.Perm (l[i] :: l.eraseIdx i) := by
  rw [List.eraseIdx_eq_take_drop_succ]
  conv_lhs => rw [← List.take_append_drop i l, List.drop_eq_getElem_cons h]
  exact List.perm_middle

/-- `Int.toNat` undoes the coercion from `Nat`. -/
theorem toNat_coe (n : Nat) : ((n : Int)).toNat = n := rfl

/-- Invariant of the single-player placement loop: given enough
iterations and pieces, every area cell ends up holding one of the
player's pieces, cells outside the area are untouched, the inventory
shrinks by exactly the area size, and the placed pieces together with
the leftover inventory are a permutation of the initial inventory. -/
theorem setupPlayerLoop_spec :
    ∀ (n : Nat) (b : Board) (pl : Player) (area : List (Nat × Nat)) (ks : List Nat),
      b.WF →
      area.Nodup →
      (∀ rc ∈ area, rc.1 < b.size ∧ rc.2 < b.size ∧ getCell b rc.1 rc.2 = none) →
      area.length ≤ n →
      area.length ≤ pl.pieces.length →
      ((setupPlayerLoop n b pl area ks).1.WF ∧
       (setupPlayerLoop n b pl area ks).1.size = b.size ∧
       (∀ r c, (r, c) ∉ area →
          getCell (setupPlayerLoop n b pl area ks).1 r c = getCell b r c) ∧
       (∀ rc ∈ area, ∃ pc ∈ pl.pieces,
          getCell (setupPlayerLoop n b pl area ks).1 rc.1 rc.2 = some pc) ∧
       (setupPlayerLoop n b pl area ks).2.1.pieces.length + area.length =
         pl.pieces.length ∧
       (piecesOn (setupPlayerLoop n b pl area ks).1 area ++
         (setupPlayerLoop n b pl area ks).2.1.pieces).Perm pl.pieces ∧
       (setupPlayerLoop n b pl area ks).2.1 =
         { pl with pieces := (setupPlayerLoop n b pl area ks).2.1.pieces }) := by
  intro n
  induction n with
  | zero =>
    intro b pl area ks hWF hnodup hcells hlen hlenP
    obtain rfl : area = [] := List.eq_nil_of_length_eq_zero (Nat.le_zero.mp hlen)
    refine ⟨hWF, rfl, fun r c _ => rfl, by simp, by simp [setupPlayerLoop], ?_, rfl⟩
    simp [setupPlayerLoop, piecesOn]
  | succ n ih =>
    intro b pl area ks hWF hnodup hcells hlen hlenP
    by_cases hemp : area.isEmpty
    · obtain rfl : area = [] := List.isEmpty_iff.mp hemp
      rw [show setupPlayerLoop (Nat.succ n) b pl [] ks = (b, pl, []) from by
        rw [setupPlayerLoop]; rfl]
      exact ⟨hWF, rfl, fun r c _ => rfl, by simp, by simp, by simp [piecesOn], rfl⟩
    · have hne : area ≠ [] := fun h => hemp (by rw [h]; rfl)
      have hlen0 : 0 < area.length := List.length_pos.mpr hne
      have hplen0 : 0 < pl.pieces.length := Nat.lt_of_lt_of_le hlen0 hlenP
      have hpe : ¬ pl.pieces.isEmpty = true := by
        intro h
        rw [List.isEmpty_iff.mp h] at hplen0
        simp at hplen0
      have hidx : ks.headD 0 % pl.pieces.length < pl.pieces.length :=
        Nat.mod_lt _ hplen0
      have hrp : get_random_piece pl (ks.headD 0) =
          (some (pl.pieces[ks.headD 0 % pl.pieces.length]),
            { pl with pieces := pl.pieces.eraseIdx (ks.headD 0 % pl.pieces.length) }) := by
        unfold get_random_piece
        rw [if_neg hpe]
        dsimp only
        rw [List.getElem?_eq_getElem hidx]
      have hlast : area.getLast?.getD (0, 0) = area.getLast hne := by
        rw [List.getLast?_eq_getLast area hne]
        rfl
      obtain ⟨hrb1, hrb2, hrcell⟩ := hcells (area.getLast hne) (List.getLast_mem hne)
      have hpp : place_piece b ((area.getLast hne).1 : Int) ((area.getLast hne).2 : Int)
          (pl.pieces[ks.headD 0 % pl.pieces.length]) =
          (true, setCell b (area.getLast hne).1 (area.getLast hne).2
            (some (pl.pieces[ks.headD 0 % pl.pieces.length]))) := by
        unfold place_piece
        rw [if_pos]
        · rw [toNat_coe, toNat_coe]
        · refine ⟨Int.natCast_nonneg _, by exact_mod_cast hrb1,
            Int.natCast_nonneg _, by exact_mod_cast hrb2, ?_⟩
          rw [toNat_coe, toNat_coe]
          exact hrcell
      have hstep : setupPlayerLoop (Nat.succ n) b pl area ks =
          setupPlayerLoop n
            (setCell b (area.getLast hne).1 (area.getLast hne).2
              (some (pl.pieces[ks.headD 0 % pl.pieces.length])))
            { pl with pieces := pl.pieces.eraseIdx (ks.headD 0 % pl.pieces.length) }
            area.dropLast ks.tail := by
        rw [setupPlayerLoop]
        rw [if_neg hemp]
        dsimp only
        rw [hrp]
        dsimp only
        rw [hlast, hpp]
      have hWF1 : (setCell b (area.getLast hne).1 (area.getLast hne).2
          (some (pl.pieces[ks.headD 0 % pl.pieces.length]))).WF := setCell_WF _ _ _ _ hWF
      have hnodup' : area.dropLast.Nodup :=
        List.Nodup.sublist (List.dropLast_sublist area) hnodup
      have hsplit : area.dropLast ++ [area.getLast hne] = area :=
        List.dropLast_append_getLast hne
      have hlast_not_mem : area.getLast hne ∉ area.dropLast := by
        intro hmem
        have : (area.dropLast ++ [area.getLast hne]).Nodup := by rw [hsplit]; exact hnodup
        exact (List.nodup_append.mp this).2.2 hmem (by simp)
      have hne_cells : ∀ rc' ∈ area.dropLast,
          (area.getLast hne).1 ≠ rc'.1 ∨ (area.getLast hne).2 ≠ rc'.2 := by
        intro rc' hm
        by_contra hcon
        push_neg at hcon
        exact hlast_not_mem (by rw [Prod.ext hcon.1 hcon.2]; exact hm)
      have hcells' : ∀ rc' ∈ area.dropLast,
          rc'.1 < (setCell b (area.getLast hne).1 (area.getLast hne).2
            (some (pl.pieces[ks.headD 0 % pl.pieces.length]))).size ∧
          rc'.2 < (setCell b (area.getLast hne).1 (area.getLast hne).2
            (some (pl.pieces[ks.headD 0 % pl.pieces.length]))).size ∧
          getCell (setCell b (area.getLast hne).1 (area.getLast hne).2
            (some (pl.pieces[ks.headD 0 % pl.pieces.length]))) rc'.1 rc'.2 = none := by
        intro rc' hm
        obtain ⟨h1, h2, h3⟩ := hcells rc' ((List.dropLast_sublist area).subset hm)
        rw [setCell_size]
        refine ⟨h1, h2, ?_⟩
        rw [getCell_setCell_ne _ _ _ _ _ _ (hne_cells rc' hm)]
        exact h3
      have hlen' : area.dropLast.length ≤ n := by
        rw [List.length_dropLast]
        omega
      have herase_len : (pl.pieces.eraseIdx (ks.headD 0 % pl.pieces.length)).length =
          pl.pieces.length - 1 := by
        rw [List.length_eraseIdx, if_pos hidx]
      have hlenP' : area.dropLast.length ≤
          (pl.pieces.eraseIdx (ks.headD 0 % pl.pieces.length)).length := by
        rw [List.length_dropLast, herase_len]
        omega
      obtain ⟨ihWF, ihsize, ihout, ihin, ihlen, ihperm, ihpl⟩ :=
        ih (setCell b (area.getLast hne).1 (area.getLast hne).2
            (some (pl.pieces[ks.headD 0 % pl.pieces.length])))
          { pl with pieces := pl.pieces.eraseIdx (ks.headD 0 % pl.pieces.length) }
          area.dropLast ks.tail hWF1 hnodup' hcells' hlen' hlenP'
      rw [hstep]
      have hlastcell : getCell (setupPlayerLoop n
          (setCell b (area.getLast hne).1 (area.getLast hne).2
            (some (pl.pieces[ks.headD 0 % pl.pieces.length])))
          { pl with pieces := pl.pieces.eraseIdx (ks.headD 0 % pl.pieces.length) }
          area.dropLast ks.tail).1 (area.getLast hne).1 (area.getLast hne).2 =
          some (pl.pieces[ks.headD 0 % pl.pieces.length]) := by
        rw [show (area.getLast hne).1 = ((area.getLast hne).1, (area.getLast hne).2).1 from rfl]
        rw [show (area.getLast hne).2 = ((area.getLast hne).1, (area.getLast hne).2).2 from rfl]
        rw [ihout _ _ (by simpa using hlast_not_mem)]
        exact getCell_setCell_self' b hWF _ _ _ hrb1 hrb2
      refine ⟨ihWF, ihsize, ?_, ?_, ?_, ?_, ?_⟩
      · -- cells outside the area are untouched
        intro r c hnm
        have hnm1 : (r, c) ∉ area.dropLast :=
          fun hmem => hnm ((List.dropLast_sublist area).subset hmem)
        have hnm2 : (r, c) ≠ area.getLast hne :=
          fun heq => hnm (heq ▸ List.getLast_mem hne)
        rw [ihout r c hnm1]
        rw [getCell_setCell_ne]
        rcases Decidable.em ((area.getLast hne).1 = r) with h | h
        · right
          intro hc
          exact hnm2 (by rw [Prod.ext_iff]; exact ⟨h.symm, hc.symm⟩)
        · exact Or.inl h
      · -- every area cell holds one of the player's pieces
        intro rc hm
        rcases List.mem_append.mp (hsplit ▸ hm) with hm' | hm'
        · obtain ⟨pc, hpcmem, hpccell⟩ := ihin rc hm'
          refine ⟨pc, ?_, hpccell⟩
          exact (List.eraseIdx_sublist pl.pieces _).subset hpcmem
        · obtain rfl : rc = area.getLast hne := by simpa using hm'
          exact ⟨pl.pieces[ks.headD 0 % pl.pieces.length], List.getElem_mem hidx, hlastcell⟩
      · -- inventory length bookkeeping
        rw [herase_len] at ihlen
        rw [List.length_dropLast] at ihlen
        omega
      · -- placed pieces plus leftover inventory permute the inventory
        have hsplit' : piecesOn (setupPlayerLoop n
            (setCell b (area.getLast hne).1 (area.getLast hne).2
              (some (pl.pieces[ks.headD 0 % pl.pieces.length])))
            { pl with pieces := pl.pieces.eraseIdx (ks.headD 0 % pl.pieces.length) }
            area.dropLast ks.tail).1 area =
            piecesOn (setupPlayerLoop n
              (setCell b (area.getLast hne).1 (area.getLast hne).2
                (some (pl.pieces[ks.headD 0 % pl.pieces.length])))
              { pl with pieces := pl.pieces.eraseIdx (ks.headD 0 % pl.pieces.length) }
              area.dropLast ks.tail).1 area.dropLast ++
            [pl.pieces[ks.headD 0 % pl.pieces.length]] := by
          have h0 : piecesOn (setupPlayerLoop n
              (setCell b (area.getLast hne).1 (area.getLast hne).2
                (some (pl.pieces[ks.headD 0 % pl.pieces.length])))
              { pl with pieces := pl.pieces.eraseIdx (ks.headD 0 % pl.pieces.length) }
              area.dropLast ks.tail).1 (area.dropLast ++ [area.getLast hne]) =
              piecesOn (setupPlayerLoop n
                (setCell b (area.getLast hne).1 (area.getLast hne).2
                  (some (pl.pieces[ks.headD 0 % pl.pieces.length])))
                { pl with pieces := pl.pieces.eraseIdx (ks.headD 0 % pl.pieces.length) }
                area.dropLast ks.tail).1 area.dropLast ++
              [pl.pieces[ks.headD 0 % pl.pieces.length]] := by
            unfold piecesOn
            rw [List.filterMap_append]
            congr 1
            simp only [List.filterMap_cons, List.filterMap_nil, hlastcell]
          rw [← h0, hsplit]
        rw [hsplit']
        have step1 : (piecesOn (setupPlayerLoop n
            (setCell b (area.getLast hne).1 (area.getLast hne).2
              (some (pl.pieces[ks.headD 0 % pl.pieces.length])))
            { pl with pieces := pl.pieces.eraseIdx (ks.headD 0 % pl.pieces.length) }
            area.dropLast ks.tail).1 area.dropLast ++
            [pl.pieces[ks.headD 0 % pl.pieces.length]] ++
            (setupPlayerLoop n
            (setCell b (area.getLast hne).1 (area.getLast hne).2
              (some (pl.pieces[ks.headD 0 % pl.pieces.length])))
            { pl with pieces := pl.pieces.eraseIdx (ks.headD 0 % pl.pieces.length) }
            area.dropLast ks.tail).2.1.pieces).Perm
            (pl.pieces[ks.headD 0 % pl.pieces.length] ::
              (piecesOn (setupPlayerLoop n
                (setCell b (area.getLast hne).1 (area.getLast hne).2
                  (some (pl.pieces[ks.headD 0 % pl.pieces.length])))
                { pl with pieces := pl.pieces.eraseIdx (ks.headD 0 % pl.pieces.length) }
                area.dropLast ks.tail).1 area.dropLast ++
               (setupPlayerLoop n
                (setCell b (area.getLast hne).1 (area.getLast hne).2
                  (some (pl.pieces[ks.headD 0 % pl.pieces.length])))
                { pl with pieces := pl.pieces.eraseIdx (ks.headD 0 % pl.pieces.length) }
                area.dropLast ks.tail).2.1.pieces)) := by
          rw [List.append_assoc]
          exact List.perm_middle
        refine step1.trans ?_
        refine (ihperm.cons (pl.pieces[ks.headD 0 % pl.pieces.length])).trans ?_
        exact (perm_getElem_cons_eraseIdx pl.pieces _ hidx).symm
      · -- only the inventory field of the player changes
        rw [ihpl]

/-- `filterMap` keeps the length when every entry produces a value. -/
theorem length_filterMap_all_some (l : List α) (f : α → Option β)
    (h : ∀ x ∈ l, (f x).isSome) : (l.filterMap f).length = l.length := by
  induction l with
  | nil => rfl
  | cons a l ih =>
    have ha := h a (List.mem_cons_self a l)
    rw [List.filterMap_cons]
    cases hfa : f a with
    | none => rw [hfa] at ha; simp at ha
    | some v =>
      rw [List.length_cons, ih fun x hx => h x (List.mem_cons_of_mem a hx)]
      rfl

/-- Over cells that all hold a `pid`-owned piece, the scan entries list
exactly those cells. -/
theorem filterMap_ppEntry_map_pos (b : Board) (pid : Nat) (cells : List (Nat × Nat))
    (h : ∀ rc ∈ cells, ∃ pc, getCell b rc.1 rc.2 = some pc ∧ pc.player_id = pid) :
    (cells.filterMap (ppEntry b pid)).map (fun t => (t.1, t.2.1)) = cells := by
  induction cells with
  | nil => rfl
  | cons rc cells ih =>
    obtain ⟨pc, hpc, hp⟩ := h rc (List.mem_cons_self rc cells)
    have hentry : ppEntry b pid rc = some (rc.1, rc.2, pc) := by
      unfold ppEntry
      rw [hpc]
      dsimp only
      rw [if_pos hp]
    rw [List.filterMap_cons, hentry, List.map_cons,
      ih fun x hx => h x (List.mem_cons_of_mem rc hx)]

/-- Over such cells, the scan entries carry exactly the pieces sitting
on those cells. -/
theorem filterMap_ppEntry_map_piece (b : Board) (pid : Nat) (cells : List (Nat × Nat))
    (h : ∀ rc ∈ cells, ∃ pc, getCell b rc.1 rc.2 = some pc ∧ pc.player_id = pid) :
    (cells.filterMap (ppEntry b pid)).map (fun t => t.2.2) = piecesOn b cells := by
  induction cells with
  | nil => rfl
  | cons rc cells ih =>
    obtain ⟨pc, hpc, hp⟩ := h rc (List.mem_cons_self rc cells)
    have hentry : ppEntry b pid rc = some (rc.1, rc.2, pc) := by
      unfold ppEntry
      rw [hpc]
      dsimp only
      rw [if_pos hp]
    unfold piecesOn
    rw [List.filterMap_cons, List.filterMap_cons, hentry, hpc, List.map_cons,
      ih fun x hx => h x (List.mem_cons_of_mem rc hx)]
    rfl

/-- Boards that agree on a set of cells carry the same pieces there. -/
theorem piecesOn_congr (b1 b2 : Board) (cells : List (Nat × Nat))
    (h : ∀ rc ∈ cells, getCell b1 rc.1 rc.2 = getCell b2 rc.1 rc.2) :
    piecesOn b1 cells = piecesOn b2 cells := by
  unfold piecesOn
  induction cells with
  | nil => rfl
  | cons rc cells ih =>
    rw [List.filterMap_cons, List.filterMap_cons, h rc (List.mem_cons_self rc cells),
      ih fun x hx => h x (List.mem_cons_of_mem rc hx)]

/-- The `get_player_pieces` scan restricted to the cells where the scan
entry is non-trivial. -/
theorem get_player_pieces_perm_filterMap (b : Board) (pid : Nat)
    (cells : List (Nat × Nat)) (hnd : cells.Nodup)
    (hbnd : ∀ rc ∈ cells, rc.1 < b.size ∧ rc.2 < b.size)
    (hout : ∀ rc : Nat × Nat, rc.1 < b.size → rc.2 < b.size → rc ∉ cells →
      ppEntry b pid rc = none) :
    (get_player_pieces b pid).Perm (cells.filterMap (ppEntry b pid)) := by
  rw [get_player_pieces_eq_filterMap]
  have hsub : cells ⊆ allCells b := fun rc hrc => (mem_allCells b rc).mpr (hbnd rc hrc)
  obtain ⟨l, hperm, hsl⟩ := List.subperm_of_subset hnd hsub
  obtain ⟨rest, hrest⟩ := exists_perm_append_of_sublist hsl
  have hAperm : (allCells b).Perm (cells ++ rest) :=
    hrest.trans (hperm.append_right rest)
  have hnodup2 : (cells ++ rest).Nodup := hAperm.nodup (allCells_nodup b)
  have hrest_none : ∀ rc ∈ rest, ppEntry b pid rc = none := by
    intro rc hrc
    have hmemA : rc ∈ allCells b := hAperm.mem_iff.mpr (List.mem_append.mpr (Or.inr hrc))
    have hnm : rc ∉ cells := fun hc => (List.nodup_append.mp hnodup2).2.2 hc hrc
    obtain ⟨hb1, hb2⟩ := (mem_allCells b rc).mp hmemA
    exact hout rc hb1 hb2 hnm
  refine (hAperm.filterMap (ppEntry b pid)).trans ?_
  rw [List.filterMap_append, List.filterMap_eq_nil_iff.mpr hrest_none, List.append_nil]

/-- Characterization of `get_player_pieces` when a player's pieces sit
exactly on a known set of cells: the scan has one entry per cell, its
positions enumerate the cells, and its pieces are the ones on them. -/
theorem get_player_pieces_of_cells (b : Board) (pid : Nat)
    (cells : List (Nat × Nat)) (hnd : cells.Nodup)
    (hbnd : ∀ rc ∈ cells, rc.1 < b.size ∧ rc.2 < b.size)
    (hin : ∀ rc ∈ cells, ∃ pc, getCell b rc.1 rc.2 = some pc ∧ pc.player_id = pid)
    (hout : ∀ rc : Nat × Nat, rc.1 < b.size → rc.2 < b.size → rc ∉ cells →
      ∀ pc, getCell b rc.1 rc.2 = some pc → pc.player_id ≠ pid) :
    (get_player_pieces b pid).length = cells.length ∧
    ((get_player_pieces b pid).map fun t => (t.1, t.2.1)).Perm cells ∧
    ((get_player_pieces b pid).map fun t => t.2.2).Perm (piecesOn b cells) := by
  have hout' : ∀ rc : Nat × Nat, rc.1 < b.size → rc.2 < b.size → rc ∉ cells →
      ppEntry b pid rc = none := by
    intro rc h1 h2 h3
    unfold ppEntry
    cases hcell : getCell b rc.1 rc.2 with
    | none => rfl
    | some pc =>
      dsimp only
      rw [if_neg (hout rc h1 h2 h3 pc hcell)]
  have hmain := get_player_pieces_perm_filterMap b pid cells hnd hbnd hout'
  have hsome : ∀ rc ∈ cells, (ppEntry b pid rc).isSome := by
    intro rc hrc
    obtain ⟨pc, hpc, hp⟩ := hin rc hrc
    unfold ppEntry
    rw [hpc]
    dsimp only
    rw [if_pos hp]
    rfl
  refine ⟨?_, ?_, ?_⟩
  · rw [hmain.length_eq]
    exact length_filterMap_all_some cells _ hsome
  · refine (hmain.map _).trans ?_
    rw [filterMap_ppEntry_map_pos b pid cells hin]
  · refine (hmain.map _).trans ?_
    rw [filterMap_ppEntry_map_piece b pid cells hin]

/-- Every cell of a freshly constructed board is empty. -/
theorem getCell_empty_board (n r c : Nat) :
    getCell { size := n, grid := List.replicate n (List.replicate n none) } r c = none := by
  unfold getCell
  dsimp only
  rw [List.getElem?_replicate]
  by_cases h : r < n
  · rw [if_pos h]
    dsimp only [Option.bind]
    rw [List.getElem?_replicate]
    by_cases h2 : c < n
    · rw [if_pos h2]
      rfl
    · rw [if_neg h2]
      rfl
  · rw [if_neg h]
    rfl

/-- One pass of the placement loop, phrased against the player's
designated region rather than its shuffled copy. -/
theorem setup_pass (b : Board) (pl : Player) (area region : List (Nat × Nat))
    (ks : List Nat)
    (hWF : b.WF)
    (hperm : area.Perm region)
    (hreg_nd : region.Nodup)
    (hreg_bnd : ∀ rc ∈ region, rc.1 < b.size ∧ rc.2 < b.size)
    (hreg_empty : ∀ rc ∈ region, getCell b rc.1 rc.2 = none)
    (hlen12 : region.length ≤ 12)
    (hlenP : region.length ≤ pl.pieces.length) :
    (setupPlayerLoop 12 b pl area ks).1.WF ∧
    (setupPlayerLoop 12 b pl area ks).1.size = b.size ∧
    (∀ rc : Nat × Nat, rc ∉ region →
      getCell (setupPlayerLoop 12 b pl area ks).1 rc.1 rc.2 = getCell b rc.1 rc.2) ∧
    (∀ rc ∈ region, ∃ pc ∈ pl.pieces,
      getCell (setupPlayerLoop 12 b pl area ks).1 rc.1 rc.2 = some pc) ∧
    (setupPlayerLoop 12 b pl area ks).2.1.pieces.length + region.length =
      pl.pieces.length ∧
    (piecesOn (setupPlayerLoop 12 b pl area ks).1 region ++
      (setupPlayerLoop 12 b pl area ks).2.1.pieces).Perm pl.pieces ∧
    (setupPlayerLoop 12 b pl area ks).2.1 =
      { pl with pieces := (setupPlayerLoop 12 b pl area ks).2.1.pieces } := by
  have hlen_eq : area.length = region.length := hperm.length_eq
  obtain ⟨sWF, ssize, sout, sin, slen, sperm, spl⟩ :=
    setupPlayerLoop_spec 12 b pl area ks hWF
      (hperm.symm.nodup hreg_nd)
      (fun rc hrc => ⟨(hreg_bnd rc (hperm.subset hrc)).1,
        (hreg_bnd rc (hperm.subset hrc)).2, hreg_empty rc (hperm.subset hrc)⟩)
      (by omega) (by omega)
  refine ⟨sWF, ssize, ?_, ?_, by omega, ?_, spl⟩
  · intro rc hrc
    obtain ⟨r, c⟩ := rc
    exact sout r c fun hmem => hrc (hperm.subset hmem)
  · intro rc hrc
    exact sin rc (hperm.mem_iff.mpr hrc)
  · refine List.Perm.trans ?_ sperm
    exact List.Perm.append_right _ ((hperm.symm).filterMap _)

/-- After `setup_board` on a two-player game (any shuffle outcomes, any
randint oracle): each 12-cell region holds that player's pieces, cells
outside both regions stay empty, the pieces on each region are a
permutation of the player's initial inventory, and both inventories are
fully consumed. -/
theorem setup2_facts (s1 s2 : List (Nat × Nat)) (ks1 ks2 : List Nat)
    (hp1 : s1.Perm ((startingAreas 2).getD 0 []))
    (hp2 : s2.Perm ((startingAreas 2).getD 1 [])) :
    (setup_board game2 [s1, s2] [ks1, ks2]).board.WF ∧
    (setup_board game2 [s1, s2] [ks1, ks2]).board.size = 6 ∧
    (∀ rc ∈ (startingAreas 2).getD 0 [],
      ∃ pc ∈ (Player.init 1 "Player 1" [PieceType.R, PieceType.P, PieceType.S] 4).pieces,
        getCell (setup_board game2 [s1, s2] [ks1, ks2]).board rc.1 rc.2 = some pc) ∧
    (∀ rc ∈ (startingAreas 2).getD 1 [],
      ∃ pc ∈ (Player.init 2 "Player 2" [PieceType.R, PieceType.P, PieceType.S] 4).pieces,
        getCell (setup_board game2 [s1, s2] [ks1, ks2]).board rc.1 rc.2 = some pc) ∧
    (∀ rc : Nat × Nat, rc ∉ (startingAreas 2).getD 0 [] →
      rc ∉ (startingAreas 2).getD 1 [] →
      getCell (setup_board game2 [s1, s2] [ks1, ks2]).board rc.1 rc.2 = none) ∧
    (piecesOn (setup_board game2 [s1, s2] [ks1, ks2]).board
      ((startingAreas 2).getD 0 [])).Perm
      (Player.init 1 "Player 1" [PieceType.R, PieceType.P, PieceType.S] 4).pieces ∧
    (piecesOn (setup_board game2 [s1, s2] [ks1, ks2]).board
      ((startingAreas 2).getD 1 [])).Perm
      (Player.init 2 "Player 2" [PieceType.R, PieceType.P, PieceType.S] 4).pieces ∧
    (∀ pl ∈ (setup_board game2 [s1, s2] [ks1, ks2]).players, pl.pieces = []) := by
  have hdisj12 : ∀ rc ∈ (startingAreas 2).getD 0 [], rc ∉ (startingAreas 2).getD 1 [] := by
    decide
  have hdisj21 : ∀ rc ∈ (startingAreas 2).getD 1 [], rc ∉ (startingAreas 2).getD 0 [] := by
    decide
  obtain ⟨w1, z1, out1, in1, len1, perm1, pl1⟩ :=
    setup_pass game2.board
      (Player.init 1 "Player 1" [PieceType.R, PieceType.P, PieceType.S] 4)
      s1 ((startingAreas 2).getD 0 []) ks1 (by decide) hp1 (by decide) (by decide)
      (fun rc _ => getCell_empty_board 6 rc.1 rc.2) (by decide) (by decide)
  obtain ⟨w2, z2, out2, in2, len2, perm2, pl2⟩ :=
    setup_pass
      (setupPlayerLoop 12 game2.board
        (Player.init 1 "Player 1" [PieceType.R, PieceType.P, PieceType.S] 4) s1 ks1).1
      (Player.init 2 "Player 2" [PieceType.R, PieceType.P, PieceType.S] 4)
      s2 ((startingAreas 2).getD 1 []) ks2 w1 hp2 (by decide)
      (fun rc hrc => by
        rw [z1]
        exact (by decide :
          ∀ rc ∈ (startingAreas 2).getD 1 [],
            rc.1 < game2.board.size ∧ rc.2 < game2.board.size) rc hrc)
      (fun rc hrc => by
        rw [out1 rc (hdisj21 rc hrc)]
        exact getCell_empty_board 6 rc.1 rc.2)
      (by decide) (by decide)
  have hb : (setup_board game2 [s1, s2] [ks1, ks2]).board =
      (setupPlayerLoop 12
        (setupPlayerLoop 12 game2.board
          (Player.init 1 "Player 1" [PieceType.R, PieceType.P, PieceType.S] 4) s1 ks1).1
        (Player.init 2 "Player 2" [PieceType.R, PieceType.P, PieceType.S] 4) s2 ks2).1 :=
    rfl
  have hps : (setup_board game2 [s1, s2] [ks1, ks2]).players =
      [(setupPlayerLoop 12 game2.board
          (Player.init 1 "Player 1" [PieceType.R, PieceType.P, PieceType.S] 4) s1 ks1).2.1,
       (setupPlayerLoop 12
          (setupPlayerLoop 12 game2.board
            (Player.init 1 "Player 1" [PieceType.R, PieceType.P, PieceType.S] 4) s1 ks1).1
          (Player.init 2 "Player 2" [PieceType.R, PieceType.P, PieceType.S] 4) s2 ks2).2.1] :=
    rfl
  have hlenR1 : ((startingAreas 2).getD 0 []).length = 12 := by decide
  have hlenR2 : ((startingAreas 2).getD 1 []).length = 12 := by decide
  have hlenP1 : (Player.init 1 "Player 1"
      [PieceType.R, PieceType.P, PieceType.S] 4).pieces.length = 12 := by decide
  have hlenP2 : (Player.init 2 "Player 2"
      [PieceType.R, PieceType.P, PieceType.S] 4).pieces.length = 12 := by decide
  have hrem1 : (setupPlayerLoop 12 game2.board
      (Player.init 1 "Player 1" [PieceType.R, PieceType.P, PieceType.S] 4)
      s1 ks1).2.1.pieces = [] :=
    List.eq_nil_of_length_eq_zero (by omega)
  have hrem2 : (setupPlayerLoop 12
      (setupPlayerLoop 12 game2.board
        (Player.init 1 "Player 1" [PieceType.R, PieceType.P, PieceType.S] 4) s1 ks1).1
      (Player.init 2 "Player 2" [PieceType.R, PieceType.P, PieceType.S] 4)
      s2 ks2).2.1.pieces = [] :=
    List.eq_nil_of_length_eq_zero (by omega)
  refine ⟨hb ▸ w2, by rw [hb, z2, z1]; rfl, ?_, ?_, ?_, ?_, ?_, ?_⟩
  · intro rc hrc
    rw [hb, out2 rc (hdisj12 rc hrc)]
    exact in1 rc hrc
  · intro rc hrc
    rw [hb]
    exact in2 rc hrc
  · intro rc h1 h2
    rw [hb, out2 rc h2, out1 rc h1]
    exact getCell_empty_board 6 rc.1 rc.2
  · rw [hb]
    rw [piecesOn_congr _ _ _ (fun rc hrc => out2 rc (hdisj12 rc hrc))]
    rw [hrem1, List.append_nil] at perm1
    exact perm1
  · rw [hb]
    rw [hrem2, List.append_nil] at perm2
    exact perm2
  · intro pl hm
    rw [hps] at hm
    rcases List.mem_cons.mp hm with rfl | hm
    · exact hrem1
    · rcases List.mem_cons.mp hm with rfl | hm
      · exact hrem2
      · simp at hm

/-- After `setup_board` on a three-player game: each 8-cell region holds
that player's pieces, cells outside the regions stay empty, and every
player keeps exactly 4 unplaced pieces (the 8-cell region cannot hold
the 12-piece inventory). -/
theorem setup3_facts (s1 s2 s3 : List (Nat × Nat)) (ks1 ks2 ks3 : List Nat)
    (hp1 : s1.Perm ((startingAreas 3).getD 0 []))
    (hp2 : s2.Perm ((startingAreas 3).getD 1 []))
    (hp3 : s3.Perm ((startingAreas 3).getD 2 [])) :
    (setup_board game3 [s1, s2, s3] [ks1, ks2, ks3]).board.WF ∧
    (setup_board game3 [s1, s2, s3] [ks1, ks2, ks3]).board.size = 6 ∧
    (∀ rc ∈ (startingAreas 3).getD 0 [],
      ∃ pc ∈ (Player.init 1 "Player 1" [PieceType.R, PieceType.P, PieceType.S] 4).pieces,
        getCell (setup_board game3 [s1, s2, s3] [ks1, ks2, ks3]).board rc.1 rc.2 = some pc) ∧
    (∀ rc ∈ (startingAreas 3).getD 1 [],
      ∃ pc ∈ (Player.init 2 "Player 2" [PieceType.R, PieceType.P, PieceType.S] 4).pieces,
        getCell (setup_board game3 [s1, s2, s3] [ks1, ks2, ks3]).board rc.1 rc.2 = some pc) ∧
    (∀ rc ∈ (startingAreas 3).getD 2 [],
      ∃ pc ∈ (Player.init 3 "Player 3" [PieceType.R, PieceType.P, PieceType.S] 4).pieces,
        getCell (setup_board game3 [s1, s2, s3] [ks1, ks2, ks3]).board rc.1 rc.2 = some pc) ∧
    (∀ rc : Nat × Nat, rc ∉ (startingAreas 3).getD 0 [] →
      rc ∉ (startingAreas 3).getD 1 [] → rc ∉ (startingAreas 3).getD 2 [] →
      getCell (setup_board game3 [s1, s2, s3] [ks1, ks2, ks3]).board rc.1 rc.2 = none) ∧
    (∀ pl ∈ (setup_board game3 [s1, s2, s3] [ks1, ks2, ks3]).players,
      pl.pieces.length = 4) := by
  have hd12 : ∀ rc ∈ (startingAreas 3).getD 0 [], rc ∉ (startingAreas 3).getD 1 [] := by
    decide
  have hd21 : ∀ rc ∈ (startingAreas 3).getD 1 [], rc ∉ (startingAreas 3).getD 0 [] := by
    decide
  have hd31 : ∀ rc ∈ (startingAreas 3).getD 2 [], rc ∉ (startingAreas 3).getD 0 [] := by
    decide
  have hd32 : ∀ rc ∈ (startingAreas 3).getD 2 [], rc ∉ (startingAreas 3).getD 1 [] := by
    decide
  have hd13 : ∀ rc ∈ (startingAreas 3).getD 0 [], rc ∉ (startingAreas 3).getD 2 [] := by
    decide
  have hd23 : ∀ rc ∈ (startingAreas 3).getD 1 [], rc ∉ (startingAreas 3).getD 2 [] := by
    decide
  obtain ⟨w1, z1, out1, in1, len1, perm1, pl1⟩ :=
    setup_pass game3.board
      (Player.init 1 "Player 1" [PieceType.R, PieceType.P, PieceType.S] 4)
      s1 ((startingAreas 3).getD 0 []) ks1 (by decide) hp1 (by decide) (by decide)
      (fun rc _ => getCell_empty_board 6 rc.1 rc.2) (by decide) (by decide)
  obtain ⟨w2, z2, out2, in2, len2, perm2, pl2⟩ :=
    setup_pass
      (setupPlayerLoop 12 game3.board
        (Player.init 1 "Player 1" [PieceType.R, PieceType.P, PieceType.S] 4) s1 ks1).1
      (Player.init 2 "Player 2" [PieceType.R, PieceType.P, PieceType.S] 4)
      s2 ((startingAreas 3).getD 1 []) ks2 w1 hp2 (by decide)
      (fun rc hrc => by
        rw [z1]
        exact (by decide :
          ∀ rc ∈ (startingAreas 3).getD 1 [],
            rc.1 < game3.board.size ∧ rc.2 < game3.board.size) rc hrc)
      (fun rc hrc => by
        rw [out1 rc (hd21 rc hrc)]
        exact getCell_empty_board 6 rc.1 rc.2)
      (by decide) (by decide)
  obtain ⟨w3, z3, out3, in3, len3, perm3, pl3⟩ :=
    setup_pass
      (setupPlayerLoop 12
        (setupPlayerLoop 12 game3.board
          (Player.init 1 "Player 1" [PieceType.R, PieceType.P, PieceType.S] 4) s1 ks1).1
        (Player.init 2 "Player 2" [PieceType.R, PieceType.P, PieceType.S] 4) s2 ks2).1
      (Player.init 3 "Player 3" [PieceType.R, PieceType.P, PieceType.S] 4)
      s3 ((startingAreas 3).getD 2 []) ks3 w2 hp3 (by decide)
      (fun rc hrc => by
        rw [z2, z1]
        exact (by decide :
          ∀ rc ∈ (startingAreas 3).getD 2 [],
            rc.1 < game3.board.size ∧ rc.2 < game3.board.size) rc hrc)
      (fun rc hrc => by
        rw [out2 rc (hd32 rc hrc), out1 rc (hd31 rc hrc)]
        exact getCell_empty_board 6 rc.1 rc.2)
      (by decide) (by decide)
  have hb : (setup_board game3 [s1, s2, s3] [ks1, ks2, ks3]).board =
      (setupPlayerLoop 12
        (setupPlayerLoop 12
          (setupPlayerLoop 12 game3.board
            (Player.init 1 "Player 1" [PieceType.R, PieceType.P, PieceType.S] 4) s1 ks1).1
          (Player.init 2 "Player 2" [PieceType.R, PieceType.P, PieceType.S] 4) s2 ks2).1
        (Player.init 3 "Player 3" [PieceType.R, PieceType.P, PieceType.S] 4) s3 ks3).1 :=
    rfl
  have hps : (setup_board game3 [s1, s2, s3] [ks1, ks2, ks3]).players =
      [(setupPlayerLoop 12 game3.board
          (Player.init 1 "Player 1" [PieceType.R, PieceType.P, PieceType.S] 4) s1 ks1).2.1,
       (setupPlayerLoop 12
          (setupPlayerLoop 12 game3.board
            (Player.init 1 "Player 1" [PieceType.R, PieceType.P, PieceType.S] 4) s1 ks1).1
          (Player.init 2 "Player 2" [PieceType.R, PieceType.P, PieceType.S] 4) s2 ks2).2.1,
       (setupPlayerLoop 12
          (setupPlayerLoop 12
            (setupPlayerLoop 12 game3.board
              (Player.init 1 "Player 1" [PieceType.R, PieceType.P, PieceType.S] 4) s1 ks1).1
            (Player.init 2 "Player 2" [PieceType.R, PieceType.P, PieceType.S] 4) s2 ks2).1
          (Player.init 3 "Player 3" [PieceType.R, PieceType.P, PieceType.S] 4) s3 ks3).2.1] :=
    rfl
  have hlenR1 : ((startingAreas 3).getD 0 []).length = 8 := by decide
  have hlenR2 : ((startingAreas 3).getD 1 []).length = 8 := by decide
  have hlenR3 : ((startingAreas 3).getD 2 []).length = 8 := by decide
  have hlenP1 : (Player.init 1 "Player 1"
      [PieceType.R, PieceType.P, PieceType.S] 4).pieces.length = 12 := by decide
  have hlenP2 : (Player.init 2 "Player 2"
      [PieceType.R, PieceType.P, PieceType.S] 4).pieces.length = 12 := by decide
  have hlenP3 : (Player.init 3 "Player 3"
      [PieceType.R, PieceType.P, PieceType.S] 4).pieces.length = 12 := by decide
  refine ⟨hb ▸ w3, by rw [hb, z3, z2, z1]; rfl, ?_, ?_, ?_, ?_, ?_⟩
  · intro rc hrc
    rw [hb, out3 rc (hd13 rc hrc), out2 rc (hd12 rc hrc)]
    exact in1 rc hrc
  · intro rc hrc
    rw [hb, out3 rc (hd23 rc hrc)]
    exact in2 rc hrc
  · intro rc hrc
    rw [hb]
    exact in3 rc hrc
  · intro rc h1 h2 h3
    rw [hb, out3 rc h3, out2 rc h2, out1 rc h1]
    exact getCell_empty_board 6 rc.1 rc.2
  · intro pl hm
    rw [hps] at hm
    rcases List.mem_cons.mp hm with rfl | hm
    · omega
    · rcases List.mem_cons.mp hm with rfl | hm
      · omega
      · rcases List.mem_cons.mp hm with rfl | hm
        · omega
        · simp at hm

/-- `get_player_pieces` against a region of owned cells on a 6×6 board. -/
theorem region_scan (B : Board) (hsize : B.size = 6) (pid : Nat)
    (region : List (Nat × Nat)) (pieces0 : List Piece)
    (hnd : region.Nodup)
    (hbnd : ∀ rc ∈ region, rc.1 < 6 ∧ rc.2 < 6)
    (hin : ∀ rc ∈ region, ∃ pc ∈ pieces0, getCell B rc.1 rc.2 = some pc)
    (hown : ∀ pc ∈ pieces0, pc.player_id = pid)
    (hout : ∀ rc : Nat × Nat, rc.1 < 6 → rc.2 < 6 → rc ∉ region →
      ∀ pc, getCell B rc.1 rc.2 = some pc → pc.player_id ≠ pid) :
    (get_player_pieces B pid).length = region.length ∧
    ((get_player_pieces B pid).map fun t => (t.1, t.2.1)).Perm region ∧
    ((get_player_pieces B pid).map fun t => t.2.2).Perm (piecesOn B region) := by
  exact get_player_pieces_of_cells B pid region hnd
    (fun rc hrc => by rw [hsize]; exact hbnd rc hrc)
    (fun rc hrc => by
      obtain ⟨pc, hpc0, hpc⟩ := hin rc hrc
      exact ⟨pc, hpc, hown pc hpc0⟩)
    (fun rc h1 h2 h3 pc hpc => hout rc (hsize ▸ h1) (hsize ▸ h2) h3 pc hpc)

/-- C4 (amended): after `Game.setup_board`, for 2 players each player
has exactly 12 pieces on the board (4 of each type), sitting on exactly
the cells of that player's 12-cell region; for 3 players the 8-cell
regions can only absorb 8 of the 12 pieces, so each player has exactly 8
pieces on the board, sitting on exactly its region (the 4-per-type
breakdown no longer holds); in both cases the regions are pairwise
disjoint, so no cell holds pieces of two players. -/
theorem setup_board_regions :
    (∀ (s1 s2 : List (Nat × Nat)) (ks1 ks2 : List Nat),
      s1.Perm ((startingAreas 2).getD 0 []) →
      s2.Perm ((startingAreas 2).getD 1 []) →
      ((get_player_pieces (setup_board game2 [s1, s2] [ks1, ks2]).board 1).length = 12 ∧
       (∀ T : PieceType,
         (get_player_pieces (setup_board game2 [s1, s2] [ks1, ks2]).board 1).countP
           (fun t => decide (t.2.2.type = T)) = 4) ∧
       ((get_player_pieces (setup_board game2 [s1, s2] [ks1, ks2]).board 1).map
         (fun t => (t.1, t.2.1))).Perm ((startingAreas 2).getD 0 []) ∧
       (get_player_pieces (setup_board game2 [s1, s2] [ks1, ks2]).board 2).length = 12 ∧
       (∀ T : PieceType,
         (get_player_pieces (setup_board game2 [s1, s2] [ks1, ks2]).board 2).countP
           (fun t => decide (t.2.2.type = T)) = 4) ∧
       ((get_player_pieces (setup_board game2 [s1, s2] [ks1, ks2]).board 2).map
         (fun t => (t.1, t.2.1))).Perm ((startingAreas 2).getD 1 []))) ∧
    (∀ rc ∈ (startingAreas 2).getD 0 [], rc ∉ (startingAreas 2).getD 1 []) ∧
    (∀ (s1 s2 s3 : List (Nat × Nat)) (ks1 ks2 ks3 : List Nat),
      s1.Perm ((startingAreas 3).getD 0 []) →
      s2.Perm ((startingAreas 3).getD 1 []) →
      s3.Perm ((startingAreas 3).getD 2 []) →
      ((get_player_pieces
          (setup_board game3 [s1, s2, s3] [ks1, ks2, ks3]).board 1).length = 8 ∧
       ((get_player_pieces (setup_board game3 [s1, s2, s3] [ks1, ks2, ks3]).board 1).map
         (fun t => (t.1, t.2.1))).Perm ((startingAreas 3).getD 0 []) ∧
       (get_player_pieces
          (setup_board game3 [s1, s2, s3] [ks1, ks2, ks3]).board 2).length = 8 ∧
       ((get_player_pieces (setup_board game3 [s1, s2, s3] [ks1, ks2, ks3]).board 2).map
         (fun t => (t.1, t.2.1))).Perm ((startingAreas 3).getD 1 []) ∧
       (get_player_pieces
          (setup_board game3 [s1, s2, s3] [ks1, ks2, ks3]).board 3).length = 8 ∧
       ((get_player_pieces (setup_board game3 [s1, s2, s3] [ks1, ks2, ks3]).board 3).map
         (fun t => (t.1, t.2.1))).Perm ((startingAreas 3).getD 2 []))) ∧
    (∀ rc ∈ (startingAreas 3).getD 0 [], rc ∉ (startingAreas 3).getD 1 []) ∧
    (∀ rc ∈ (startingAreas 3).getD 0 [], rc ∉ (startingAreas 3).getD 2 []) ∧
    (∀ rc ∈ (startingAreas 3).getD 1 [], rc ∉ (startingAreas 3).getD 2 []) := by
  refine ⟨?_, by decide, ?_, by decide, by decide, by decide⟩
  · -- two players
    intro s1 s2 ks1 ks2 hp1 hp2
    obtain ⟨hWF, hsize, hin1, hin2, hnone, hpcs1, hpcs2, _⟩ :=
      setup2_facts s1 s2 ks1 ks2 hp1 hp2
    have hown1 : ∀ pc ∈ (Player.init 1 "Player 1"
        [PieceType.R, PieceType.P, PieceType.S] 4).pieces, pc.player_id = 1 := by decide
    have hown2 : ∀ pc ∈ (Player.init 2 "Player 2"
        [PieceType.R, PieceType.P, PieceType.S] 4).pieces, pc.player_id = 2 := by decide
    have hd12 : ∀ rc ∈ (startingAreas 2).getD 0 [],
        rc ∉ (startingAreas 2).getD 1 [] := by decide
    have hout1 : ∀ rc : Nat × Nat, rc.1 < 6 → rc.2 < 6 →
        rc ∉ (startingAreas 2).getD 0 [] →
        ∀ pc, getCell (setup_board game2 [s1, s2] [ks1, ks2]).board rc.1 rc.2 = some pc →
          pc.player_id ≠ 1 := by
      intro rc h1 h2 h3 pc hpc
      by_cases hm2 : rc ∈ (startingAreas 2).getD 1 []
      · obtain ⟨pc', hpc0', hpc'⟩ := hin2 rc hm2
        rw [hpc] at hpc'
        obtain rfl : pc = pc' := Option.some_inj.mp hpc'
        rw [hown2 pc hpc0']
        decide
      · rw [hnone rc h3 hm2] at hpc
        simp at hpc
    have hout2 : ∀ rc : Nat × Nat, rc.1 < 6 → rc.2 < 6 →
        rc ∉ (startingAreas 2).getD 1 [] →
        ∀ pc, getCell (setup_board game2 [s1, s2] [ks1, ks2]).board rc.1 rc.2 = some pc →
          pc.player_id ≠ 2 := by
      intro rc h1 h2 h3 pc hpc
      by_cases hm1 : rc ∈ (startingAreas 2).getD 0 []
      · obtain ⟨pc', hpc0', hpc'⟩ := hin1 rc hm1
        rw [hpc] at hpc'
        obtain rfl : pc = pc' := Option.some_inj.mp hpc'
        rw [hown1 pc hpc0']
        decide
      · rw [hnone rc hm1 h3] at hpc
        simp at hpc
    obtain ⟨hL1, hPos1, hPiece1⟩ := region_scan _ hsize 1 _ _ (by decide) (by decide)
      hin1 hown1 hout1
    obtain ⟨hL2, hPos2, hPiece2⟩ := region_scan _ hsize 2 _ _ (by decide) (by decide)
      hin2 hown2 hout2
    have hcount1 : ∀ T : PieceType,
        (Player.init 1 "Player 1" [PieceType.R, PieceType.P, PieceType.S] 4).pieces.countP
          (fun pc => decide (pc.type = T)) = 4 := by intro T; cases T <;> decide
    have hcount2 : ∀ T : PieceType,
        (Player.init 2 "Player 2" [PieceType.R, PieceType.P, PieceType.S] 4).pieces.countP
          (fun pc => decide (pc.type = T)) = 4 := by intro T; cases T <;> decide
    refine ⟨by rw [hL1]; decide, ?_, hPos1, by rw [hL2]; decide, ?_, hPos2⟩
    · intro T
      have e1 : (get_player_pieces (setup_board game2 [s1, s2] [ks1, ks2]).board 1).countP
          (fun t => decide (t.2.2.type = T)) =
          ((get_player_pieces (setup_board game2 [s1, s2] [ks1, ks2]).board 1).map
            (fun t => t.2.2)).countP (fun pc => decide (pc.type = T)) := by
        rw [List.countP_map]
        rfl
      rw [e1, List.Perm.countP_eq _ (hPiece1.trans hpcs1)]
      exact hcount1 T
    · intro T
      have e2 : (get_player_pieces (setup_board game2 [s1, s2] [ks1, ks2]).board 2).countP
          (fun t => decide (t.2.2.type = T)) =
          ((get_player_pieces (setup_board game2 [s1, s2] [ks1, ks2]).board 2).map
            (fun t => t.2.2)).countP (fun pc => decide (pc.type = T)) := by
        rw [List.countP_map]
        rfl
      rw [e2, List.Perm.countP_eq _ (hPiece2.trans hpcs2)]
      exact hcount2 T
  · -- three players
    intro s1 s2 s3 ks1 ks2 ks3 hp1 hp2 hp3
    obtain ⟨hWF, hsize, hin1, hin2, hin3, hnone, _⟩ :=
      setup3_facts s1 s2 s3 ks1 ks2 ks3 hp1 hp2 hp3
    have hown1 : ∀ pc ∈ (Player.init 1 "Player 1"
        [PieceType.R, PieceType.P, PieceType.S] 4).pieces, pc.player_id = 1 := by decide
    have hown2 : ∀ pc ∈ (Player.init 2 "Player 2"
        [PieceType.R, PieceType.P, PieceType.S] 4).pieces, pc.player_id = 2 := by decide
    have hown3 : ∀ pc ∈ (Player.init 3 "Player 3"
        [PieceType.R, PieceType.P, PieceType.S] 4).pieces, pc.player_id = 3 := by decide
    have hout1 : ∀ rc : Nat × Nat, rc.1 < 6 → rc.2 < 6 →
        rc ∉ (startingAreas 3).getD 0 [] →
        ∀ pc, getCell (setup_board game3 [s1, s2, s3] [ks1, ks2, ks3]).board rc.1 rc.2 =
          some pc → pc.player_id ≠ 1 := by
      intro rc h1 h2 h3 pc hpc
      by_cases hm2 : rc ∈ (startingAreas 3).getD 1 []
      · obtain ⟨pc', hpc0', hpc'⟩ := hin2 rc hm2
        rw [hpc] at hpc'
        obtain rfl : pc = pc' := Option.some_inj.mp hpc'
        rw [hown2 pc hpc0']
        decide
      · by_cases hm3 : rc ∈ (startingAreas 3).getD 2 []
        · obtain ⟨pc', hpc0', hpc'⟩ := hin3 rc hm3
          rw [hpc] at hpc'
          obtain rfl : pc = pc' := Option.some_inj.mp hpc'
          rw [hown3 pc hpc0']
          decide
        · rw [hnone rc h3 hm2 hm3] at hpc
          simp at hpc
    have hout2 : ∀ rc : Nat × Nat, rc.1 < 6 → rc.2 < 6 →
        rc ∉ (startingAreas 3).getD 1 [] →
        ∀ pc, getCell (setup_board game3 [s1, s2, s3] [ks1, ks2, ks3]).board rc.1 rc.2 =
          some pc → pc.player_id ≠ 2 := by
      intro rc h1 h2 h3 pc hpc
      by_cases hm1 : rc ∈ (startingAreas 3).getD 0 []
      · obtain ⟨pc', hpc0', hpc'⟩ := hin1 rc hm1
        rw [hpc] at hpc'
        obtain rfl : pc = pc' := Option.some_inj.mp hpc'
        rw [hown1 pc hpc0']
        decide
      · by_cases hm3 : rc ∈ (startingAreas 3).getD 2 []
        · obtain ⟨pc', hpc0', hpc'⟩ := hin3 rc hm3
          rw [hpc] at hpc'
          obtain rfl : pc = pc' := Option.some_inj.mp hpc'
          rw [hown3 pc hpc0']
          decide
        · rw [hnone rc hm1 h3 hm3] at hpc
          simp at hpc
    have hout3 : ∀ rc : Nat × Nat, rc.1 < 6 → rc.2 < 6 →
        rc ∉ (startingAreas 3).getD 2 [] →
        ∀ pc, getCell (setup_board game3 [s1, s2, s3] [ks1, ks2, ks3]).board rc.1 rc.2 =
          some pc → pc.player_id ≠ 3 := by
      intro rc h1 h2 h3 pc hpc
      by_cases hm1 : rc ∈ (startingAreas 3).getD 0 []
      · obtain ⟨pc', hpc0', hpc'⟩ := hin1 rc hm1
        rw [hpc] at hpc'
        obtain rfl : pc = pc' := Option.some_inj.mp hpc'
        rw [hown1 pc hpc0']
        decide
      · by_cases hm2 : rc ∈ (startingAreas 3).getD 1 []
        · obtain ⟨pc', hpc0', hpc'⟩ := hin2 rc hm2
          rw [hpc] at hpc'
          obtain rfl : pc = pc' := Option.some_inj.mp hpc'
          rw [hown2 pc hpc0']
          decide
        · rw [hnone rc hm1 hm2 h3] at hpc
          simp at hpc
    obtain ⟨hL1, hPos1, _⟩ := region_scan _ hsize 1 _ _ (by decide) (by decide)
      hin1 hown1 hout1
    obtain ⟨hL2, hPos2, _⟩ := region_scan _ hsize 2 _ _ (by decide) (by decide)
      hin2 hown2 hout2
    obtain ⟨hL3, hPos3, _⟩ := region_scan _ hsize 3 _ _ (by decide) (by decide)
      hin3 hown3 hout3
    exact ⟨by rw [hL1]; decide, hPos1, by rw [hL2]; decide, hPos2,
      by rw [hL3]; decide, hPos3⟩

set_option maxRecDepth 100000 in
/-- Counterexample to C4 as stated: running `setup_board` on a
three-player game (identity shuffle, zero randint oracle) leaves player
1 with 8 pieces on the board, not 12 — the 8-cell region exhausts first
and the `if not area: break` stops placement. -/
theorem setup_board_three_players_cex :
    ¬ (get_player_pieces
        (setup_board game3 (startingAreas 3) [[], [], []]).board 1).length = 12 := by
  decide

/-- Witness for C4: the 2-player conclusions at the identity shuffles. -/
theorem setup_board_regions_witness :
    (get_player_pieces (setup_board game2
        [(startingAreas 2).getD 0 [], (startingAreas 2).getD 1 []] [[], []]).board 1).length
      = 12 ∧
    ((get_player_pieces (setup_board game2
        [(startingAreas 2).getD 0 [], (startingAreas 2).getD 1 []] [[], []]).board 1).map
      (fun t => (t.1, t.2.1))).Perm ((startingAreas 2).getD 0 []) :=
  ⟨(setup_board_regions.1 ((startingAreas 2).getD 0 []) ((startingAreas 2).getD 1 [])
      [] [] (List.Perm.refl _) (List.Perm.refl _)).1,
   (setup_board_regions.1 ((startingAreas 2).getD 0 []) ((startingAreas 2).getD 1 [])
      [] [] (List.Perm.refl _) (List.Perm.refl _)).2.2.1⟩

/-- C7 (amended): after `Game.setup_board`, in a 2-player game every
player's unplaced inventory is empty; in a 3-player game every player
retains exactly 4 unplaced pieces, because only 8 of the 12 fit in the
8-cell region. -/
theorem setup_board_inventory :
    (∀ (s1 s2 : List (Nat × Nat)) (ks1 ks2 : List Nat),
      s1.Perm ((startingAreas 2).getD 0 []) →
      s2.Perm ((startingAreas 2).getD 1 []) →
      ∀ pl ∈ (setup_board game2 [s1, s2] [ks1, ks2]).players, pl.pieces = []) ∧
    (∀ (s1 s2 s3 : List (Nat × Nat)) (ks1 ks2 ks3 : List Nat),
      s1.Perm ((startingAreas 3).getD 0 []) →
      s2.Perm ((startingAreas 3).getD 1 []) →
      s3.Perm ((startingAreas 3).getD 2 []) →
      ∀ pl ∈ (setup_board game3 [s1, s2, s3] [ks1, ks2, ks3]).players,
        pl.pieces.length = 4) := by
  constructor
  · intro s1 s2 ks1 ks2 hp1 hp2
    exact (setup2_facts s1 s2 ks1 ks2 hp1 hp2).2.2.2.2.2.2.2
  · intro s1 s2 s3 ks1 ks2 ks3 hp1 hp2 hp3
    exact (setup3_facts s1 s2 s3 ks1 ks2 ks3 hp1 hp2 hp3).2.2.2.2.2.2

set_option maxRecDepth 100000 in
/-- Counterexample to C7 as stated: after a three-player setup the
players' inventories are not empty (4 pieces each remain unplaced). -/
theorem setup_board_inventory_cex :
    ¬ (∀ pl ∈ (setup_board game3 (startingAreas 3) [[], [], []]).players,
        pl.pieces = []) := by
  decide

set_option maxRecDepth 100000 in
/-- Witness for C7: at the identity shuffles, the first player of the
two-player game ends setup with an empty inventory. -/
theorem setup_board_inventory_witness :
    ((setup_board game2 [(startingAreas 2).getD 0 [], (startingAreas 2).getD 1 []]
        [[], []]).players.headD
      { id := 0, name := "", piece_types := [], piece_count := 0, pieces := [] }).pieces
      = [] :=
  setup_board_inventory.1 ((startingAreas 2).getD 0 []) ((startingAreas 2).getD 1 [])
    [] [] (List.Perm.refl _) (List.Perm.refl _) _ (by decide)

/-! ### The MinimaxAI strategy -/

/-- Python float scores restricted to what `MinimaxAI` produces: exact
integers and the two `float` infinities used to seed the search. -/
inductive ExtInt where
  | negInf
  | val (n : Int)
  | posInf
  deriving DecidableEq, Repr

/-- The `<=` comparison on scores (no NaN can arise). -/
def ExtInt.le : ExtInt → ExtInt → Bool
  | ExtInt.negInf, _ => true
  | ExtInt.val _, ExtInt.negInf => false
  | ExtInt.val a, ExtInt.val b => decide (a ≤ b)
  | ExtInt.val _, ExtInt.posInf => true
  | ExtInt.posInf, ExtInt.posInf => true
  | ExtInt.posInf, _ => false

/-- Python's `a > b` on these scores. -/
def ExtInt.gt (a b : ExtInt) : Bool := ! ExtInt.le a b

/-- Python's `max` (value-wise). -/
def ExtInt.maxE (a b : ExtInt) : ExtInt := if ExtInt.le a b then b else a

/-- Python's `min` (value-wise). -/
def ExtInt.minE (a b : ExtInt) : ExtInt := if ExtInt.le a b then a else b

/-- The AI-internal board snapshot: a grid of `(type, owner)` pairs. -/
def Snapshot := List (List (Option (PieceType × Nat)))

/-- Reading a snapshot cell the way the Python code indexes its nested
lists (all call sites stay in range). -/
def snapGet (bc : Snapshot) (r c : Nat) : Option (PieceType × Nat) :=
  (bc.getD r []).getD c none

/-- Writing a snapshot cell. -/
def snapSet (bc : Snapshot) (r c : Nat) (v : Option (PieceType × Nat)) : Snapshot :=
  bc.set r ((bc.getD r []).set c v)

/-- `MinimaxAI.copy_board`: a detached `(type, owner)` copy of the live
grid. -/
def copy_board (g : Game) : Snapshot :=
  (List.range g.board.size).map fun row =>
    (List.range g.board.size).map fun col =>
      match getCell g.board row col with
      | some piece => some (piece.type, piece.player_id)
      | none => none

/-- `MinimaxAI.make_move_on_copy`: relocation or combat on the snapshot.
The `none` result models the `TypeError` Python would raise when
unpacking an empty source cell into `piece_type, player_id` (its callers
only generate moves from occupied sources, so they never hit it). -/
def make_move_on_copy (bc : Snapshot) (from_row from_col to_row to_col : Nat) :
    Option Snapshot :=
  let moving_piece := snapGet bc from_row from_col
  let target_piece := snapGet bc to_row to_col
  match target_piece with
  | none =>
    some (snapSet (snapSet bc to_row to_col moving_piece) from_row from_col none)
  | some target =>
    match moving_piece with
    | none => none
    | some piece =>
      if piece.1 = target.1 then
        some (snapSet (snapSet bc from_row from_col none) to_row to_col none)
      else if (piece.1 = PieceType.R ∧ target.1 = PieceType.S) ∨
              (piece.1 = PieceType.P ∧ target.1 = PieceType.R) ∨
              (piece.1 = PieceType.S ∧ target.1 = PieceType.P) then
        some (snapSet (snapSet bc to_row to_col moving_piece) from_row from_col none)
      else
        some (snapSet bc from_row from_col none)

/-- `MinimaxAI.get_possible_moves`: all single-step moves of a player's
snapshot pieces onto empty or enemy cells. -/
def get_possible_moves (board : Snapshot) (player_id : Nat) :
    List (Nat × Nat × Nat × Nat) :=
  (List.range board.length).flatMap fun row =>
    (List.range (board.getD row []).length).flatMap fun col =>
      match snapGet board row col with
      | some piece =>
        if piece.2 = player_id then
          ([(0, 1), (1, 0), (0, -1), (-1, 0)] : List (Int × Int)).filterMap fun d =>
            let new_row := (row : Int) + d.1
            let new_col := (col : Int) + d.2
            if 0 ≤ new_row ∧ new_row < (board.length : Int) ∧
                0 ≤ new_col ∧ new_col < ((board.getD 0 []).length : Int) then
              match snapGet board new_row.toNat new_col.toNat with
              | none => some (row, col, new_row.toNat, new_col.toNat)
              | some target =>
                if target.2 ≠ player_id then
                  some (row, col, new_row.toNat, new_col.toNat)
                else
                  none
            else
              none
        else []
      | none => []

/-- The per-type piece count of a player on a snapshot. -/
def snapTypeCount (board : Snapshot) (player_id : Nat) (t : PieceType) : Nat :=
  (board.map fun row => row.countP fun cell =>
    match cell with
    | some p => decide (p.2 = player_id ∧ p.1 = t)
    | none => false).sum

/-- The total piece count of a player on a snapshot. -/
def snapOwnCount (board : Snapshot) (player_id : Nat) : Nat :=
  (board.map fun row => row.countP fun cell =>
    match cell with
    | some p => decide (p.2 = player_id)
    | none => false).sum

/-- The total enemy piece count on a snapshot. -/
def snapEnemyCount (board : Snapshot) (player_id : Nat) : Nat :=
  (board.map fun row => row.countP fun cell =>
    match cell with
    | some p => decide (p.2 ≠ player_id)
    | none => false).sum

/-- The adjacency-matchup contribution of one own piece. -/
def adjacencyScore (board : Snapshot) (player_id : Nat) (row col : Nat) : Int :=
  match snapGet board row col with
  | some piece =>
    if piece.2 = player_id then
      (([(0, 1), (1, 0), (0, -1), (-1, 0)] : List (Int × Int)).map fun d =>
        let new_row := (row : Int) + d.1
        let new_col := (col : Int) + d.2
        if 0 ≤ new_row ∧ new_row < (board.length : Int) ∧
            0 ≤ new_col ∧ new_col < ((board.getD 0 []).length : Int) then
          match snapGet board new_row.toNat new_col.toNat with
          | some target =>
            if target.2 ≠ player_id then
              if (piece.1 = PieceType.R ∧ target.1 = PieceType.S) ∨
                  (piece.1 = PieceType.P ∧ target.1 = PieceType.R) ∨
                  (piece.1 = PieceType.S ∧ target.1 = PieceType.P) then (2 : Int)
              else if (piece.1 = PieceType.R ∧ target.1 = PieceType.P) ∨
                  (piece.1 = PieceType.P ∧ target.1 = PieceType.S) ∨
                  (piece.1 = PieceType.S ∧ target.1 = PieceType.R) then (-2 : Int)
              else 0
            else 0
          | none => 0
        else 0).sum
    else 0
  | none => 0

/-- `MinimaxAI.evaluate_board`: material ×10, weakest-type balance ×5,
center control +3 each, and ±2 per adjacency matchup. -/
def evaluate_board (board : Snapshot) (player_id : Nat) : Int :=
  let my_total : Int := snapOwnCount board player_id
  let opponent_total : Int := snapEnemyCount board player_id
  let min_type_count : Int :=
    Nat.min (Nat.min (snapTypeCount board player_id PieceType.R)
      (snapTypeCount board player_id PieceType.P))
      (snapTypeCount board player_id PieceType.S)
  let center : Int :=
    (([(2, 2), (2, 3), (3, 2), (3, 3)] : List (Nat × Nat)).map fun rc =>
      if rc.1 < board.length ∧ rc.2 < (board.getD 0 []).length then
        match snapGet board rc.1 rc.2 with
        | some piece => if piece.2 = player_id then (3 : Int) else 0
        | none => 0
      else 0).sum
  let adjacency : Int :=
    ((List.range board.length).map fun row =>
      ((List.range (board.getD row []).length).map fun col =>
        adjacencyScore board player_id row col).sum).sum
  (my_total - opponent_total) * 10 + min_type_count * 5 + center + adjacency

/-!  `MinimaxAI.minimax` with alpha-beta pruning.  Its two `for` loops
(`maxLoopP` for the maximizing branch, `minLoopP` for the minimizing
one) are factored out, parameterized by the one-ply-deeper evaluator, so
that `minimax` itself is plain structural recursion on the depth; the
early `break` is the explicit early return.  The `none` result
propagates an exception from `make_move_on_copy` or from an invalid
player list (never hit from well-formed games). -/

def maxLoopP (rec : Snapshot → ExtInt → ExtInt → Option ExtInt) (board : Snapshot)
    (beta : ExtInt) : List (Nat × Nat × Nat × Nat) → ExtInt → ExtInt → Option ExtInt
  | [], max_eval, _ => some max_eval
  | mv :: rest, max_eval, alpha =>
    match make_move_on_copy board mv.1 mv.2.1 mv.2.2.1 mv.2.2.2 with
    | none => none
    | some board_copy =>
      match rec board_copy alpha beta with
      | none => none
      | some ev =>
        let max_eval' := ExtInt.maxE max_eval ev
        let alpha' := ExtInt.maxE alpha ev
        if ExtInt.le beta alpha' then some max_eval'
        else maxLoopP rec board beta rest max_eval' alpha'

def minLoopP (rec : Snapshot → ExtInt → ExtInt → Option ExtInt) (board : Snapshot)
    (alpha : ExtInt) : List (Nat × Nat × Nat × Nat) → ExtInt → ExtInt → Option ExtInt
  | [], min_eval, _ => some min_eval
  | mv :: rest, min_eval, beta =>
    match make_move_on_copy board mv.1 mv.2.1 mv.2.2.1 mv.2.2.2 with
    | none => none
    | some board_copy =>
      match rec board_copy alpha beta with
      | none => none
      | some ev =>
        let min_eval' := ExtInt.minE min_eval ev
        let beta' := ExtInt.minE beta ev
        if ExtInt.le beta' alpha then some min_eval'
        else minLoopP rec board alpha rest min_eval' beta'

def minimax (g : Game) : Nat → Snapshot → Bool → Nat → ExtInt → ExtInt → Option ExtInt
  | 0, board, _, player_id, _, _ => some (ExtInt.val (evaluate_board board player_id))
  | Nat.succ d, board, is_maximizing, player_id, alpha, beta =>
    match g.players[(g.current_player_index +
        (if is_maximizing then 0 else 1)) % g.players.length]? with
    | none => none
    | some next_player =>
      if is_maximizing then
        maxLoopP (fun bc a b => minimax g d bc false player_id a b) board beta
          (get_possible_moves board player_id) ExtInt.negInf alpha
      else
        minLoopP (fun bc a b => minimax g d bc true player_id a b) board alpha
          (get_possible_moves board next_player.id) ExtInt.posInf beta

/-- `random.choice`, modelled by an arbitrary natural reduced modulo the
length; `none` is the `IndexError` on an empty sequence. -/
def randomChoice (l : List α) (k : Nat) : Option α :=
  if l.isEmpty then none else l[k % l.length]?

/-- The loop of `AIPlayer.get_valid_pieces_with_moves`: keep the pieces
that have at least one valid destination, paired with those
destinations.  `none` propagates an exception from `get_valid_moves`. -/
def vpLoop (g : Game) : List (Nat × Nat × Piece) →
    List (Nat × Nat × Piece × List (Int × Int)) →
    Option (List (Nat × Nat × Piece × List (Int × Int)))
  | [], acc => some acc
  | t :: ts, acc =>
    match get_valid_moves g (t.1 : Int) (t.2.1 : Int) with
    | none => none
    | some valid_moves =>
      if valid_moves.isEmpty then vpLoop g ts acc
      else vpLoop g ts (acc ++ [(t.1, t.2.1, t.2.2, valid_moves)])

/-- `AIPlayer.get_valid_pieces_with_moves`. -/
def get_valid_pieces_with_moves (g : Game) (player_id : Nat) :
    Option (List (Nat × Nat × Piece × List (Int × Int))) :=
  vpLoop g (get_player_pieces g.board player_id) []

/-- The inner `for to_row, to_col in valid_moves` loop of
`MinimaxAI.choose_move`, carrying the running best score and move. -/
def cmInner (g : Game) (player_id : Nat) (row col : Nat) :
    List (Int × Int) → ExtInt → Option (Nat × Nat × Int × Int) →
    Option (ExtInt × Option (Nat × Nat × Int × Int))
  | [], best_score, best_move => some (best_score, best_move)
  | tc :: ms, best_score, best_move =>
    match make_move_on_copy (copy_board g) row col tc.1.toNat tc.2.toNat with
    | none => none
    | some board_copy =>
      match minimax g (2 - 1) board_copy false player_id ExtInt.negInf ExtInt.posInf with
      | none => none
      | some score =>
        if ExtInt.gt score best_score then
          cmInner g player_id row col ms score (some (row, col, tc.1, tc.2))
        else
          cmInner g player_id row col ms best_score best_move

/-- The outer `for row, col, piece, valid_moves in valid_pieces` loop. -/
def cmOuter (g : Game) (player_id : Nat) :
    List (Nat × Nat × Piece × List (Int × Int)) → ExtInt →
    Option (Nat × Nat × Int × Int) →
    Option (ExtInt × Option (Nat × Nat × Int × Int))
  | [], best_score, best_move => some (best_score, best_move)
  | vp :: rest, best_score, best_move =>
    match cmInner g player_id vp.1 vp.2.1 vp.2.2.2 best_score best_move with
    | none => none
    | some (best_score', best_move') => cmOuter g player_id rest best_score' best_move'

/-- `MinimaxAI.choose_move`, threading the live game state through so
that its preservation can be stated; `k1`/`k2` are the `random.choice`
oracles of the fallback branch, and the outer `none` models a raised
exception. -/
def choose_move (g : Game) (k1 k2 : Nat) :
    Option (Option (Nat × Nat × Int × Int) × Game) :=
  match g.players[g.current_player_index]? with
  | none => none
  | some current_player =>
    match get_valid_pieces_with_moves g current_player.id with
    | none => none
    | some valid_pieces =>
      if valid_pieces.isEmpty then some (none, g)
      else
        match cmOuter g current_player.id valid_pieces ExtInt.negInf none with
        | none => none
        | some (_, some best_move) => some (some best_move, g)
        | some (_, none) =>
          match randomChoice valid_pieces k1 with
          | none => none
          | some vp =>
            match randomChoice vp.2.2.2 k2 with
            | none => none
            | some mv => some (some (vp.1, vp.2.1, mv.1, mv.2), g)

/-- C8: `MinimaxAI.choose_move` searches only detached snapshot copies:
whenever it returns, the live game state it hands back — board grid,
players, current player index, timer and game-over flag — is exactly the
state it was given. -/
theorem choose_move_frame (g : Game) (k1 k2 : Nat) :
    ∀ r, choose_move g k1 k2 = some r →
      r.2.board = g.board ∧ r.2.players = g.players ∧
      r.2.current_player_index = g.current_player_index ∧
      r.2.turn_timer = g.turn_timer ∧ r.2.game_over = g.game_over ∧ r.2 = g := by
  intro r hr
  unfold choose_move at hr
  split at hr
  · exact absurd hr (by simp)
  · split at hr
    · exact absurd hr (by simp)
    · split at hr
      · obtain rfl : (none, g) = r := Option.some_inj.mp hr
        exact ⟨rfl, rfl, rfl, rfl, rfl, rfl⟩
      · split at hr
        · exact absurd hr (by simp)
        · obtain rfl : _ = r := Option.some_inj.mp hr
          exact ⟨rfl, rfl, rfl, rfl, rfl, rfl⟩
        · split at hr
          · exact absurd hr (by simp)
          · split at hr
            · exact absurd hr (by simp)
            · obtain rfl : _ = r := Option.some_inj.mp hr
              exact ⟨rfl, rfl, rfl, rfl, rfl, rfl⟩

set_option maxRecDepth 100000 in
/-- Witness for C8 at `gameRR`: the concrete search returns the move
`(0, 0, 0, 1)` and hands back the game state unchanged. -/
theorem choose_move_frame_witness :
    ((some (0, 0, 0, 1), gameRR) : Option (Nat × Nat × Int × Int) × Game).2.board =
      gameRR.board ∧
    ((some (0, 0, 0, 1), gameRR) : Option (Nat × Nat × Int × Int) × Game).2.players =
      gameRR.players ∧
    ((some (0, 0, 0, 1), gameRR) :
        Option (Nat × Nat × Int × Int) × Game).2.current_player_index =
      gameRR.current_player_index ∧
    ((some (0, 0, 0, 1), gameRR) : Option (Nat × Nat × Int × Int) × Game).2.turn_timer =
      gameRR.turn_timer ∧
    ((some (0, 0, 0, 1), gameRR) : Option (Nat × Nat × Int × Int) × Game).2.game_over =
      gameRR.game_over ∧
    ((some (0, 0, 0, 1), gameRR) : Option (Nat × Nat × Int × Int) × Game).2 = gameRR :=
  choose_move_frame gameRR 0 0 (some (0, 0, 0, 1), gameRR) (by decide)

/-- A score strictly exceeds `float(-inf)` exactly when it is not itself
`float(-inf)`. -/
theorem ExtInt.gt_negInf (e : ExtInt) (h : e ≠ ExtInt.negInf) :
    ExtInt.gt e ExtInt.negInf = true := by
  cases e with
  | negInf => exact absurd rfl h
  | val v => rfl
  | posInf => rfl

/-- Python's `min` never yields `float(-inf)` from two finite-or-plus-inf
scores. -/
theorem ExtInt.minE_ne_negInf (x y : ExtInt) (hx : x ≠ ExtInt.negInf)
    (hy : y ≠ ExtInt.negInf) : ExtInt.minE x y ≠ ExtInt.negInf := by
  unfold ExtInt.minE
  split
  · exact hx
  · exact hy

/-- The minimizing loop keeps its accumulator away from `float(-inf)`
whenever the recursive evaluator does: `min_eval` starts at `float(inf)`
and only ever drops to scores the evaluator produced. -/
theorem minLoopP_ne_negInf (rec : Snapshot → ExtInt → ExtInt → Option ExtInt)
    (board : Snapshot) (alpha : ExtInt)
    (hrec : ∀ bc a b e, rec bc a b = some e → e ≠ ExtInt.negInf) :
    ∀ (moves : List (Nat × Nat × Nat × Nat)) (min_eval beta s : ExtInt),
      min_eval ≠ ExtInt.negInf →
      minLoopP rec board alpha moves min_eval beta = some s →
      s ≠ ExtInt.negInf := by
  intro moves
  induction moves with
  | nil =>
    intro min_eval beta s hmin h
    obtain rfl := Option.some_inj.mp h
    exact hmin
  | cons mv rest ih =>
    intro min_eval beta s hmin h
    unfold minLoopP at h
    cases hmk : make_move_on_copy board mv.1 mv.2.1 mv.2.2.1 mv.2.2.2 with
    | none => rw [hmk] at h; exact absurd h (by simp)
    | some bc =>
      rw [hmk] at h
      dsimp only at h
      cases hr : rec bc alpha beta with
      | none => rw [hr] at h; exact absurd h (by simp)
      | some ev =>
        rw [hr] at h
        dsimp only at h
        have hev := hrec bc alpha beta ev hr
        have hmin' := ExtInt.minE_ne_negInf min_eval ev hmin hev
        by_cases hle : ExtInt.le (ExtInt.minE beta ev) alpha = true
        · rw [if_pos hle] at h
          obtain rfl := Option.some_inj.mp h
          exact hmin'
        · rw [if_neg hle] at h
          exact ih _ _ _ hmin' h

/-- A depth-1 minimizing `minimax` call never evaluates to
`float(-inf)`: its loop starts at `float(inf)` and every leaf score is a
finite `evaluate_board` value. -/
theorem minimax_one_ne_negInf (g : Game) (board : Snapshot) (player_id : Nat)
    (alpha beta s : ExtInt)
    (h : minimax g 1 board false player_id alpha beta = some s) :
    s ≠ ExtInt.negInf := by
  have h' : (match g.players[(g.current_player_index + 1) % g.players.length]? with
      | none => none
      | some next_player =>
        minLoopP (fun bc a b => minimax g 0 bc true player_id a b) board alpha
          (get_possible_moves board next_player.id) ExtInt.posInf beta) = some s := h
  cases hnp : g.players[(g.current_player_index + 1) % g.players.length]? with
  | none => rw [hnp] at h'; exact absurd h' (by simp)
  | some np =>
    rw [hnp] at h'
    dsimp only at h'
    refine minLoopP_ne_negInf _ board alpha ?_
      (get_possible_moves board np.id) ExtInt.posInf beta s (by intro hc; cases hc) h'
    intro bc a b e he
    have he' : some (ExtInt.val (evaluate_board bc player_id)) = some e := he
    obtain rfl := Option.some_inj.mp he'
    intro hc
    cases hc

/-- Once `best_move` is set, the inner loop of `choose_move` never
resets it to `None`. -/
theorem cmInner_some (g : Game) (player_id row col : Nat) :
    ∀ (ms : List (Int × Int)) (bs : ExtInt) (mv0 : Nat × Nat × Int × Int)
      (s : ExtInt × Option (Nat × Nat × Int × Int)),
      cmInner g player_id row col ms bs (some mv0) = some s →
      ∃ mv, s.2 = some mv := by
  intro ms
  induction ms with
  | nil =>
    intro bs mv0 s h
    obtain rfl := Option.some_inj.mp h
    exact ⟨mv0, rfl⟩
  | cons tc rest ih =>
    intro bs mv0 s h
    unfold cmInner at h
    cases hmk : make_move_on_copy (copy_board g) row col tc.1.toNat tc.2.toNat with
    | none => rw [hmk] at h; exact absurd h (by simp)
    | some bc =>
      rw [hmk] at h
      dsimp only at h
      cases hmm : minimax g (2 - 1) bc false player_id ExtInt.negInf ExtInt.posInf with
      | none => rw [hmm] at h; exact absurd h (by simp)
      | some score =>
        rw [hmm] at h
        dsimp only at h
        by_cases hgt : ExtInt.gt score bs = true
        · rw [if_pos hgt] at h
          exact ih _ _ _ h
        · rw [if_neg hgt] at h
          exact ih _ _ _ h

/-- On a non-empty destination list, the inner loop starting from
`best_score = float(-inf)` always sets `best_move` at its first
successfully scored candidate: the depth-1 score is never
`float(-inf)`, so the strict comparison fires. -/
theorem cmInner_nonempty (g : Game) (player_id row col : Nat)
    (tc : Int × Int) (ms : List (Int × Int))
    (s : ExtInt × Option (Nat × Nat × Int × Int))
    (h : cmInner g player_id row col (tc :: ms) ExtInt.negInf none = some s) :
    ∃ mv, s.2 = some mv := by
  unfold cmInner at h
  cases hmk : make_move_on_copy (copy_board g) row col tc.1.toNat tc.2.toNat with
  | none => rw [hmk] at h; exact absurd h (by simp)
  | some bc =>
    rw [hmk] at h
    dsimp only at h
    cases hmm : minimax g (2 - 1) bc false player_id ExtInt.negInf ExtInt.posInf with
    | none => rw [hmm] at h; exact absurd h (by simp)
    | some score =>
      rw [hmm] at h
      dsimp only at h
      have hs : score ≠ ExtInt.negInf :=
        minimax_one_ne_negInf g bc player_id ExtInt.negInf ExtInt.posInf score hmm
      rw [if_pos (ExtInt.gt_negInf score hs)] at h
      exact cmInner_some g player_id row col ms score _ s h

/-- Once `best_move` is set, the outer loop of `choose_move` never
resets it to `None`. -/
theorem cmOuter_some (g : Game) (player_id : Nat) :
    ∀ (l : List (Nat × Nat × Piece × List (Int × Int))) (bs : ExtInt)
      (mv0 : Nat × Nat × Int × Int) (s : ExtInt × Option (Nat × Nat × Int × Int)),
      cmOuter g player_id l bs (some mv0) = some s → ∃ mv, s.2 = some mv := by
  intro l
  induction l with
  | nil =>
    intro bs mv0 s h
    obtain rfl := Option.some_inj.mp h
    exact ⟨mv0, rfl⟩
  | cons vp rest ih =>
    intro bs mv0 s h
    unfold cmOuter at h
    cases hin : cmInner g player_id vp.1 vp.2.1 vp.2.2.2 bs (some mv0) with
    | none => rw [hin] at h; exact absurd h (by simp)
    | some p =>
      rw [hin] at h
      obtain ⟨bs', bm'⟩ := p
      dsimp only at h
      obtain ⟨mv1, hmv1⟩ :=
        cmInner_some g player_id vp.1 vp.2.1 vp.2.2.2 bs mv0 (bs', bm') hin
      rw [show bm' = some mv1 from hmv1] at h
      exact ih bs' mv1 s h

/-- If the candidate list is non-empty (and its head's destination list
is non-empty, as `get_valid_pieces_with_moves` guarantees), the search
loop of `choose_move` ends with `best_move` set. -/
theorem cmOuter_sets_best (g : Game) (player_id : Nat)
    (vp : Nat × Nat × Piece × List (Int × Int))
    (rest : List (Nat × Nat × Piece × List (Int × Int)))
    (hne : vp.2.2.2 ≠ [])
    (s : ExtInt × Option (Nat × Nat × Int × Int))
    (h : cmOuter g player_id (vp :: rest) ExtInt.negInf none = some s) :
    ∃ mv, s.2 = some mv := by
  unfold cmOuter at h
  cases hin : cmInner g player_id vp.1 vp.2.1 vp.2.2.2 ExtInt.negInf none with
  | none => rw [hin] at h; exact absurd h (by simp)
  | some p =>
    rw [hin] at h
    obtain ⟨bs', bm'⟩ := p
    dsimp only at h
    cases hms : vp.2.2.2 with
    | nil => exact absurd hms hne
    | cons tc ms =>
      rw [hms] at hin
      obtain ⟨mv1, hmv1⟩ := cmInner_nonempty g player_id vp.1 vp.2.1 tc ms (bs', bm') hin
      rw [show bm' = some mv1 from hmv1] at h
      exact cmOuter_some g player_id rest bs' mv1 s h

/-- Every entry `get_valid_pieces_with_moves` accumulates carries a
non-empty destination list: the loop appends only when `valid_moves` is
non-empty. -/
theorem vpLoop_moves_ne_nil (g : Game) :
    ∀ (ts : List (Nat × Nat × Piece))
      (acc res : List (Nat × Nat × Piece × List (Int × Int))),
      (∀ e ∈ acc, e.2.2.2 ≠ []) → vpLoop g ts acc = some res →
      ∀ e ∈ res, e.2.2.2 ≠ [] := by
  intro ts
  induction ts with
  | nil =>
    intro acc res hacc h
    obtain rfl := Option.some_inj.mp h
    exact hacc
  | cons t ts ih =>
    intro acc res hacc h
    unfold vpLoop at h
    cases hvm : get_valid_moves g (t.1 : Int) (t.2.1 : Int) with
    | none => rw [hvm] at h; exact absurd h (by simp)
    | some vm =>
      rw [hvm] at h
      dsimp only at h
      by_cases he : vm.isEmpty = true
      · rw [if_pos he] at h
        exact ih acc res hacc h
      · rw [if_neg he] at h
        refine ih _ res ?_ h
        intro e hmem
        rcases List.mem_append.mp hmem with hmem | hmem
        · exact hacc e hmem
        · rcases List.mem_singleton.mp hmem with rfl
          dsimp only
          intro hnil
          rw [hnil] at he
          exact he rfl

/-- C9: `MinimaxAI.choose_move` is deterministic.  Its result does not
depend on the `random.choice` oracles at all: two invocations on an
identical game state agree for every pair of oracle values.  Moreover,
whenever a current player exists and has at least one candidate piece
with legal moves, the random fallback branch is unreachable: any
non-exceptional return carries a concrete best move chosen by the
search. -/
theorem choose_move_deterministic (g : Game) (k1 k2 k1' k2' : Nat) :
    choose_move g k1 k2 = choose_move g k1' k2' ∧
    (∀ (current_player : Player)
       (valid_pieces : List (Nat × Nat × Piece × List (Int × Int)))
       (r : Option (Nat × Nat × Int × Int) × Game),
      g.players[g.current_player_index]? = some current_player →
      get_valid_pieces_with_moves g current_player.id = some valid_pieces →
      valid_pieces ≠ [] →
      choose_move g k1 k2 = some r → ∃ mv, r.1 = some mv) := by
  constructor
  · unfold choose_move
    cases hcp : g.players[g.current_player_index]? with
    | none => rfl
    | some cp =>
      dsimp only
      cases hvp : get_valid_pieces_with_moves g cp.id with
      | none => rfl
      | some vps =>
        dsimp only
        by_cases he : vps.isEmpty = true
        · rw [if_pos he, if_pos he]
        · rw [if_neg he, if_neg he]
          cases hout : cmOuter g cp.id vps ExtInt.negInf none with
          | none => rfl
          | some p =>
            obtain ⟨bs, bm⟩ := p
            cases bm with
            | some mv => rfl
            | none =>
              exfalso
              have hall : ∀ e ∈ vps, e.2.2.2 ≠ [] :=
                vpLoop_moves_ne_nil g (get_player_pieces g.board cp.id) [] vps
                  (by intro e hmem; cases hmem) hvp
              cases vps with
              | nil => exact he rfl
              | cons vp rest =>
                obtain ⟨mv, hmv⟩ := cmOuter_sets_best g cp.id vp rest
                  (hall vp (List.mem_cons_self vp rest)) (bs, none) hout
                exact Option.noConfusion hmv
  · intro cp vps r hcp hvp hne hr
    unfold choose_move at hr
    rw [hcp] at hr
    dsimp only at hr
    rw [hvp] at hr
    dsimp only at hr
    have he : vps.isEmpty = false := by
      cases vps with
      | nil => exact absurd rfl hne
      | cons a l => rfl
    rw [he] at hr
    simp only [Bool.false_eq_true, if_false] at hr
    cases hout : cmOuter g cp.id vps ExtInt.negInf none with
    | none => rw [hout] at hr; exact absurd hr (by simp)
    | some p =>
      rw [hout] at hr
      obtain ⟨bs, bm⟩ := p
      cases bm with
      | some mv =>
        obtain rfl := Option.some_inj.mp hr
        exact ⟨mv, rfl⟩
      | none =>
        exfalso
        have hall : ∀ e ∈ vps, e.2.2.2 ≠ [] :=
          vpLoop_moves_ne_nil g (get_player_pieces g.board cp.id) [] vps
            (by intro e hmem; cases hmem) hvp
        cases vps with
        | nil => exact hne rfl
        | cons vp rest =>
          obtain ⟨mv, hmv⟩ := cmOuter_sets_best g cp.id vp rest
            (hall vp (List.mem_cons_self vp rest)) (bs, none) hout
          exact Option.noConfusion hmv
